import Mathlib

/-!
Verification development for the dnsd DNS codec and server façade.

All definitions are shallow embeddings of the JavaScript sources:
buffers become `List Nat` (octet values), fallible operations become
`Except`, JS objects become structures, and the per-connection TCP
reader becomes an explicit state-transition function.
-/

namespace Dnsd

/-- A wire buffer: a list of octets (each intended to be < 256). -/
abbrev Bytes := List Nat

/-- `buf.readUInt8(i)`: `none` models the RangeError thrown on reads past the end. -/
def read8 (buf : Bytes) (i : Nat) : Option Nat := buf.get? i

/-- `buf.readUInt16BE(i)`. -/
def read16 (buf : Bytes) (i : Nat) : Option Nat := do
  let a ← buf.get? i
  let b ← buf.get? (i + 1)
  pure (a * 256 + b)

/-- `buf.readUInt32BE(i)`. -/
def read32 (buf : Bytes) (i : Nat) : Option Nat := do
  let a ← buf.get? i
  let b ← buf.get? (i + 1)
  let c ← buf.get? (i + 2)
  let d ← buf.get? (i + 3)
  pure (((a * 256 + b) * 256 + c) * 256 + d)

theorem read8_lt_length {buf : Bytes} {i b : Nat} (h : read8 buf i = some b) :
    i < buf.length := by
  by_contra hlt
  have : buf.get? i = none := List.get?_eq_none.2 (Nat.le_of_not_lt hlt)
  rw [read8, this] at h
  exact Option.noConfusion h

/-- Errors raised by the decoding side of the codec (thrown `Error`s in the source). -/
inductive DErr where
  | badOffset
  | unexpectedEnd
  | invalidPointer
  | pointerCycle
  | malformedName
  | invalidEdnsName
  | invalidType
  | unknownType
  | invalidClass
  | unknownClass
  | unknownRecordKind
  | badRData
  | outOfFuel
  | badSection
deriving DecidableEq, Repr

/-- Errors raised by the encoding side (thrown `Error`s in `encode.js`). -/
inductive EErr where
  | unknownOpcode
  | invalidName
  | unsupportedType
  | unknownTypeLabel
  | unknownClassLabel
  | outOfRange
  | badData
  | outOfFuelE
deriving DecidableEq, Repr

/-! ## Constants registry (`constants.js`)

The JS tables are object literals mapping numeric codes to labels (or `null`);
they are embedded as association lists in the literal order of the source. -/

/-- `TYPE_LABELS` from `constants.js`. -/
def TYPE_LABELS : List (Nat × Option String) :=
  [(1, some "A"), (2, some "NS"), (3, some "MD"), (4, some "MF"), (5, some "CNAME"),
   (6, some "SOA"), (7, some "MB"), (8, some "MG"), (9, some "MR"), (10, some "NULL"),
   (11, some "WKS"), (12, some "PTR"), (13, some "HINFO"), (14, some "MINFO"),
   (15, some "MX"), (16, some "TXT"), (17, some "RP"), (18, some "AFSDB"),
   (19, some "X25"), (20, some "ISDN"), (21, some "RT"), (22, some "NSAP"),
   (23, some "NSAP-PTR"), (24, some "SIG"), (25, some "KEY"), (26, some "PX"),
   (27, some "GPOS"), (28, some "AAAA"), (29, some "LOC"), (30, some "NXT"),
   (31, some "EID"), (32, some "NIMLOC"), (33, some "SRV"), (34, some "ATMA"),
   (35, some "NAPTR"), (36, some "KX"), (37, some "CERT"), (38, some "A6"),
   (39, some "DNAME"), (40, some "SINK"), (41, some "OPT"), (42, some "APL"),
   (43, some "DS"), (44, some "SSHFP"), (45, some "IPSECKEY"), (46, some "RRSIG"),
   (47, some "NSEC"), (48, some "DNSKEY"), (49, some "DHCID"), (50, some "NSEC3"),
   (51, some "NSEC3PARAM"), (52, some "TLSA"), (55, some "HIP"), (56, some "NINFO"),
   (57, some "RKEY"), (58, some "TALINK"), (59, some "CDS"), (99, some "SPF"),
   (100, some "UINFO"), (101, some "UID"), (102, some "GID"), (103, some "UNSPEC"),
   (104, some "NID"), (105, some "L32"), (106, some "L64"), (107, some "LP"),
   (249, some "TKEY"), (250, some "TSIG"), (251, some "IXFR"), (252, some "AXFR"),
   (253, some "MAILB"), (254, some "MAILA"), (255, some "*"), (256, some "URI"),
   (257, some "CAA"), (32768, some "TA"), (32769, some "DLV"), (65535, some "Reserved")]

/-- `CLASS_LABELS` from `constants.js` (entry 2 is literally `null` in the source). -/
def CLASS_LABELS : List (Nat × Option String) :=
  [(0, some "reserved"), (1, some "IN"), (2, none), (3, some "CH"), (4, some "HS"),
   (254, some "NONE"), (255, some "*"), (65535, some "reserved")]

/-- Lookup in a numeric-keyed table, first match (JS object keys are unique). -/
def tblGet (k : Nat) : List (Nat × Option String) → Option (Option String)
  | [] => none
  | (k', v) :: rest => if k = k' then some v else tblGet k rest

theorem tblGet_mem {k : Nat} {v : Option String} :
    ∀ {t : List (Nat × Option String)}, tblGet k t = some v → (k, v) ∈ t := by
  intro t
  induction t with
  | nil => intro h; exact Option.noConfusion h
  | cons p rest ih =>
    intro h
    rw [tblGet] at h
    by_cases hk : k = p.1
    · subst hk
      simp only [if_pos rfl] at h
      cases h
      exact List.mem_cons_self _ _
    · rw [if_neg hk] at h
      exact List.mem_cons_of_mem _ (ih h)

/-- JS object write followed by reads: later writes shadow earlier ones, so `transpose`
    builds the reversal with JS ascending-integer-key iteration order. -/
def jsObjGet (m : List (String × Nat)) (k : String) : Option Nat :=
  m.reverse.lookup k

/-- `transpose` from `constants.js`: keep only string-valued entries, label → number. -/
def transpose (mapping : List (Nat × Option String)) : List (String × Nat) :=
  mapping.foldl
    (fun acc kv =>
      match kv.2 with
      | some s => acc ++ [(s, kv.1)]
      | none => acc)
    []

def TYPE_NUMBERS : List (String × Nat) := transpose TYPE_LABELS
def CLASS_NUMBERS : List (String × Nat) := transpose CLASS_LABELS

/-- `typeToLabel`: numeric RR type to label, with the "Private use" fallback. -/
def typeToLabel (value : Nat) : Except DErr (Option String) :=
  if value < 1 ∨ 65535 < value then .error .invalidType
  else
    match tblGet value TYPE_LABELS with
    | some (some s) => .ok (some s)
    | _ => .ok (if 65279 < value then some "Private use" else none)

/-- `typeToNumber`: label to numeric RR type; `if (num)` in the source makes 0 falsy. -/
def typeToNumber (label : String) : Except EErr Nat :=
  match jsObjGet TYPE_NUMBERS label with
  | some num => if num ≠ 0 then .ok num else .error .unknownTypeLabel
  | none => .error .unknownTypeLabel

/-- `classToLabel`: numeric RR class to label, with the "Private use" fallback. -/
def classToLabel (value : Nat) : Except DErr (Option String) :=
  if value < 1 ∨ 65535 < value then .error .invalidClass
  else
    match tblGet value CLASS_LABELS with
    | some (some s) => .ok (some s)
    | _ => .ok (if 65279 < value then some "Private use" else none)

/-- `classToNumber`: label to numeric RR class. -/
def classToNumber (label : String) : Except EErr Nat :=
  match jsObjGet CLASS_NUMBERS label with
  | some num => if num ≠ 0 then .ok num else .error .unknownClassLabel
  | none => .error .unknownClassLabel

/-! ## Name decoder (`compileName` in `decode.js`)

The `while` loop of `compileName` becomes `nameLoop`, with an explicit fuel
argument for termination (the source always terminates because every pointer
target may be visited at most once and labels strictly advance the cursor, so
the fuel chosen by `compileName` is never exhausted).  Decoded labels are kept
as octet lists; `buffer.toString("ascii", …)` masks each octet with 0x7F. -/

def nameLoop (full : Bytes) (fuel : Nat) (buf : Bytes) (cursor : Nat)
    (visited : List Nat) (metPointer : Bool) (numOctets : Nat) (offset : Nat)
    (segments : List Bytes) : Except DErr (List Bytes × Nat) :=
  match fuel with
  | 0 => .error .outOfFuel
  | fuel + 1 =>
    match read8 buf cursor with
    | none => .error .unexpectedEnd
    | some byte =>
      if byte &&& 0xc0 = 0xc0 then
        -- pointer (the source's `pointer` variable is written out in full below)
        match read8 buf (cursor + 1) with
        | none => .error .unexpectedEnd
        | some b2 =>
          if full.length ≤ (byte &&& 0x3f) * 256 + b2 then .error .invalidPointer
          else if (byte &&& 0x3f) * 256 + b2 ∈ visited then .error .pointerCycle
          else
            nameLoop full fuel full ((byte &&& 0x3f) * 256 + b2)
              (((byte &&& 0x3f) * 256 + b2) :: visited) true
              (if metPointer then numOctets else cursor + 2 - offset) offset segments
      else if byte &&& 0xc0 = 0 then
        -- label (the source's `labelLength` is `byte &&& 0x3f`)
        if byte &&& 0x3f = 0 then
          .ok (segments, if metPointer then numOctets else cursor + 1 - offset)
        else
          nameLoop full fuel buf (cursor + 1 + (byte &&& 0x3f)) visited metPointer numOctets
            offset (segments ++ [((buf.drop (cursor + 1)).take (byte &&& 0x3f)).map (· &&& 0x7f)])
      else .error .malformedName

/-- Fuel that the terminating source loop can never exhaust. -/
def compileFuel (full buf : Bytes) : Nat :=
  (full.length + buf.length + 2) * (full.length + 2)

/-- `compileName(fullMessage, slice, offset)` from `decode.js`. -/
def compileName (fullMessage : Bytes) (slice : Option Bytes) (offset : Nat) :
    Except DErr (List Bytes × Nat) :=
  if fullMessage.length < offset then .error .badOffset
  else
    let buffer := slice.getD fullMessage
    nameLoop fullMessage (compileFuel fullMessage buffer) buffer offset [] false 1 offset []

/-- Spec-side definition for claim C4, following the spec's words: the number of
octets a name occupies "in the original stream", counting "up to the position
immediately after the first pointer (two) — not the expanded length", and
including the terminating zero label when no pointer occurs. -/
def walkConsumed (buf : Bytes) (p : Nat) : Option Nat :=
  match hb : read8 buf p with
  | none => none
  | some byte =>
    if byte &&& 0xc0 = 0xc0 then
      match read8 buf (p + 1) with
      | none => none
      | some _ => some 2
    else if byte &&& 0xc0 = 0 then
      if byte &&& 0x3f = 0 then some 1
      else
        match walkConsumed buf (p + 1 + (byte &&& 0x3f)) with
        | none => none
        | some m => some (1 + (byte &&& 0x3f) + m)
    else none
termination_by buf.length - p
decreasing_by
  have hp : p < buf.length := read8_lt_length hb
  omega

/-! ## Message decoder (`decode.js` sections plus `message.js` record parsing) -/

/-- `readUInt8` as an `Except` (a read past the end throws). -/
def r8 (buf : Bytes) (i : Nat) : Except DErr Nat :=
  match read8 buf i with
  | some v => .ok v
  | none => .error .unexpectedEnd

/-- `readUInt16BE` as an `Except`. -/
def r16 (buf : Bytes) (i : Nat) : Except DErr Nat :=
  match read16 buf i with
  | some v => .ok v
  | none => .error .unexpectedEnd

/-- `readUInt32BE` as an `Except`. -/
def r32 (buf : Bytes) (i : Nat) : Except DErr Nat :=
  match read32 buf i with
  | some v => .ok v
  | none => .error .unexpectedEnd

/-- `segments.join(".")`. -/
def joinDot (segs : List Bytes) : Bytes := List.intercalate [46] segs

/-- The `while (offset < buffer.length)` loop of `extractEDNSOptions`, with fuel
(each iteration consumes at least four octets, so `buffer.length + 1` is ample). -/
def extractEDNSOptionsLoop (buffer : Bytes) : Nat → Nat → Except DErr (List (Nat × Bytes))
  | 0, _ => .error .outOfFuel
  | fuel + 1, offset =>
    if offset < buffer.length then
      match read16 buffer offset with
      | none => .error .unexpectedEnd
      | some code =>
        match read16 buffer (offset + 2) with
        | none => .error .unexpectedEnd
        | some len =>
          let data := (buffer.drop (offset + 4)).take len
          match extractEDNSOptionsLoop buffer fuel (offset + 4 + len) with
          | .ok rest => .ok ((code, data) :: rest)
          | .error e => .error e
    else .ok []

/-- `extractEDNSOptions` from `decode.js`: a `(u16 code, u16 length, bytes)` TLV walk. -/
def extractEDNSOptions (buffer : Bytes) (offset : Nat) : Except DErr (List (Nat × Bytes)) :=
  extractEDNSOptionsLoop buffer (buffer.length + 1) offset

/-- The EDNS fields stored on a raw OPT record by `sections`. -/
structure RawEdns where
  udpSize : Nat
  extendedResult : Nat
  version : Nat
  flagDO : Bool
  flags : Nat
  options : List (Nat × Bytes)
deriving DecidableEq, Repr

/-- A record as produced by `sections`; fields the source never assigns stay `none`
(`class` is a Lean keyword, so the field is called `cls`). -/
structure RawRecord where
  type : Nat
  name : Option Bytes
  cls : Option Nat
  ttl : Option Nat
  data : Option Bytes
  edns : Option RawEdns
deriving DecidableEq, Repr

/-- The per-record body of the `sections` loop in `decode.js`. -/
def parseSectionRecords (msg : Bytes) (sectionName : String) :
    Nat → Nat → Except DErr (List RawRecord × Nat)
  | 0, position => .ok ([], position)
  | num + 1, position => do
    let (segments, length) ← compileName msg none position
    let name := joinDot segments
    let position := position + length
    let typeValue ← r16 msg position
    let classValue ← r16 msg (position + 2)
    let position := position + 4
    if sectionName = "question" then
      let record : RawRecord :=
        { type := typeValue, name := some name, cls := some classValue,
          ttl := none, data := none, edns := none }
      let (rest, finalPos) ← parseSectionRecords msg sectionName num position
      pure (record :: rest, finalPos)
    else do
      let ttl ← r32 msg position
      let rdataLength ← r16 msg (position + 4)
      let position := position + 6
      let data := (msg.drop position).take rdataLength
      let position := position + rdataLength
      let lbl ← typeToLabel typeValue
      if lbl = some "OPT" then
        if name ≠ [] then .error .invalidEdnsName
        else do
          let options ← extractEDNSOptions data 0
          let record : RawRecord :=
            { type := typeValue, name := none, cls := none, ttl := none, data := none,
              edns := some
                { udpSize := max 512 classValue, -- Math.max(512, classValue || 0)
                  extendedResult := ttl >>> 24,
                  version := (ttl >>> 16) &&& 0xff,
                  flagDO := ttl &&& 0x8000 ≠ 0,
                  flags := ttl &&& 0x7fff,
                  options := options } }
          let (rest, finalPos) ← parseSectionRecords msg sectionName num position
          pure (record :: rest, finalPos)
      else
        let record : RawRecord :=
          { type := typeValue, name := some name, cls := some classValue,
            ttl := some ttl, data := some data, edns := none }
        let (rest, finalPos) ← parseSectionRecords msg sectionName num position
        pure (record :: rest, finalPos)

/-- The four per-section record lists produced by `sections`. -/
structure SectionsData where
  question : List RawRecord
  answer : List RawRecord
  authority : List RawRecord
  additional : List RawRecord
deriving DecidableEq, Repr

/-- `recordCount` from `decode.js`. -/
def recordCount (msg : Bytes) (name : String) : Except DErr Nat :=
  if name = "question" then r16 msg 4
  else if name = "answer" then r16 msg 6
  else if name = "authority" then r16 msg 8
  else if name = "additional" then r16 msg 10
  else .error .badSection

/-- `sections` from `decode.js`: walk the four sections in order from byte 12. -/
def sections (msg : Bytes) : Except DErr SectionsData := do
  let qn ← recordCount msg "question"
  let (question, p1) ← parseSectionRecords msg "question" qn 12
  let an ← recordCount msg "answer"
  let (answer, p2) ← parseSectionRecords msg "answer" an p1
  let nn ← recordCount msg "authority"
  let (authority, p3) ← parseSectionRecords msg "authority" nn p2
  let rn ← recordCount msg "additional"
  let (additional, _) ← parseSectionRecords msg "additional" rn p3
  pure { question := question, answer := answer, authority := authority,
         additional := additional }

/-- `uncompress` from `decode.js`. -/
def uncompress (msg : Bytes) (sub : Option Bytes) (offset : Nat) : Except DErr Bytes := do
  let (segments, _) ← compileName msg sub offset
  pure (joinDot segments)

/-- The loop of `txt` from `decode.js`, with fuel (each iteration consumes at
least one octet, so the buffer length is ample). -/
def decodeTxtLoop : Nat → Bytes → List Bytes
  | 0, _ => []
  | _ + 1, [] => []
  | fuel + 1, len :: rest =>
    (rest.take len).map (· &&& 0x7f) :: decodeTxtLoop fuel (rest.drop len)

/-- `txt` from `decode.js`: length-prefixed ASCII strings. -/
def decodeTxt (data : Bytes) : List Bytes := decodeTxtLoop data.length data

/-- `mx` from `decode.js`. -/
def decodeMx (msg data : Bytes) : Except DErr (Nat × Bytes) := do
  let weight ← r16 data 0
  let name ← uncompress msg (some data) 2
  pure (weight, name)

/-- `srv` from `decode.js`. -/
def decodeSrv (msg data : Bytes) : Except DErr (Nat × Nat × Nat × Bytes) := do
  let priority ← r16 data 0
  let weight ← r16 data 2
  let port ← r16 data 4
  let target ← uncompress msg (some data) 6
  pure (priority, weight, port, target)

/-- `soa` from `decode.js`. -/
def decodeSoa (msg data : Bytes) :
    Except DErr (Bytes × Bytes × Nat × Nat × Nat × Nat × Nat) := do
  let (msegs, mlen) ← compileName msg (some data) 0
  let (rsegs, rlen) ← compileName msg (some data) mlen
  let offset := mlen + rlen
  let serial ← r32 data offset
  let refresh ← r32 data (offset + 4)
  let retry ← r32 data (offset + 8)
  let expire ← r32 data (offset + 12)
  let ttl ← r32 data (offset + 16)
  pure (joinDot msegs, joinDot rsegs, serial, refresh, retry, expire, ttl)

/-- Decimal ASCII representation of a number (`String(n)`). -/
def natDecimal (n : Nat) : Bytes := (Nat.toDigits 10 n).map Char.toNat

/-- `renderIPv4` from `message.js`. -/
def renderIPv4 (octets : Bytes) : Bytes :=
  List.intercalate [46] ((octets.take 4).map natDecimal)

/-- Lowercase hex digit character code. -/
def hexDigit (n : Nat) : Nat := if n < 10 then 48 + n else 87 + n

/-- Two lowercase hex digits of one octet. -/
def hexByte (b : Nat) : Bytes := [hexDigit ((b / 16) % 16), hexDigit (b % 16)]

/-- Split into groups of four characters (the `(....)` regex groups), with fuel. -/
def chunk4Loop : Nat → Bytes → List Bytes
  | 0, _ => []
  | _ + 1, [] => []
  | fuel + 1, a :: rest => ((a :: rest).take 4) :: chunk4Loop fuel ((a :: rest).drop 4)

/-- Split into groups of four characters. -/
def chunk4 (l : Bytes) : List Bytes := chunk4Loop l.length l

/-- `renderIPv6` from `message.js` (on its 16-octet domain the regex rewrite is
exactly colon-separated groups of four hex characters). -/
def renderIPv6 (buf : Bytes) : Bytes :=
  List.intercalate [58] (chunk4 (buf.flatMap hexByte))

/-- `rname.replace(/\./, "@")`: replace the first dot. -/
def replaceFirstDot : Bytes → Bytes
  | [] => []
  | b :: rest => if b = 46 then 64 :: rest else b :: replaceFirstDot rest

/-- Typed record data produced by `DNSRecord.parse` in `message.js`. -/
inductive DecData where
  | str (s : Bytes)
  | strList (l : List Bytes)
  | mxData (weight : Nat) (name : Bytes)
  | srvData (priority weight port : Nat) (target : Bytes)
  | soaData (mname rname : Bytes) (serial refresh retry expire ttl : Nat)
  | dsData (keyTag algorithm digestType : Nat) (digest : List Nat)
  | rawBytes (b : Bytes)
  | emptyList
deriving DecidableEq, Repr

/-- A parsed `DNSRecord` (labels are strings, data is typed). -/
structure DecRecord where
  name : Option Bytes
  cls : String
  type : String
  ttl : Option Nat
  data : Option DecData
deriving DecidableEq, Repr

/-- `DNSRecord.parse` from `message.js`.  The source's first branch tests
`sectionName === "additional" && this.edns`, but `this.edns` has never been
assigned at that point (the constructor only initialises `name`, `type` and
`class`), so the branch is never taken and OPT records fall through to
`classToLabel(record.class)` with `record.class` undefined, which throws. -/
def dnsRecordParse (body : Bytes) (sectionName : String) (record : RawRecord) :
    Except DErr DecRecord := do
  let name := record.name
  let clsNum ← match record.cls with
    | some c => pure c
    | none => .error .invalidClass -- classToLabel(undefined) throws "Invalid record class"
  let clsLabel ← classToLabel clsNum
  let typeLabel ← typeToLabel record.type
  let cls ← match clsLabel with
    | some s => pure s
    | none => .error .unknownClass
  let typ ← match typeLabel with
    | some s => pure s
    | none => .error .unknownType
  if sectionName = "question" then
    pure { name := name, cls := cls, type := typ, ttl := none, data := none }
  else do
    let ttl := record.ttl
    let rdata ← match record.data with
      | some d => pure d
      | none => .error .badRData
    let kind := cls ++ " " ++ typ
    let data ←
      if kind = "IN A" then
        if rdata.length ≠ 4 then .error .badRData
        else pure (DecData.str (renderIPv4 rdata))
      else if kind = "IN AAAA" then
        if rdata.length ≠ 16 then .error .badRData
        else pure (DecData.str (renderIPv6 rdata))
      else if kind = "IN NS" ∨ kind = "IN CNAME" ∨ kind = "IN PTR" then do
        let s ← uncompress body (some rdata) 0
        pure (DecData.str s)
      else if kind = "IN TXT" then
        let parts := decodeTxt rdata
        match parts with
        | [] => pure (DecData.str [])
        | [p] => pure (DecData.str p)
        | _ => pure (DecData.strList parts)
      else if kind = "IN MX" then do
        let (weight, nm) ← decodeMx body rdata
        pure (DecData.mxData weight nm)
      else if kind = "IN SRV" then do
        let (priority, weight, port, target) ← decodeSrv body rdata
        pure (DecData.srvData priority weight port target)
      else if kind = "IN SOA" then do
        let (mname, rname, serial, refresh, retry, expire, ttlV) ← decodeSoa body rdata
        pure (DecData.soaData mname (replaceFirstDot rname) serial refresh retry expire ttlV)
      else if kind = "IN DS" then
        -- JS indexes out of range yield NaN arithmetic rather than errors; no claim
        -- observes DS payloads, and on well-formed DS data `getD` agrees with the source.
        pure (DecData.dsData ((rdata.getD 0 0) * 256 + rdata.getD 1 0) (rdata.getD 2 0)
          (rdata.getD 3 0) (rdata.drop 4))
      else if kind = "NONE A" then
        pure DecData.emptyList
      else if kind = "IN OPT" then
        pure (DecData.rawBytes rdata)
      else .error .unknownRecordKind
    pure { name := name, cls := cls, type := typ, ttl := ttl, data := some data }

/-- A decoded `DNSMessage` (`type` is a Lean keyword-adjacent field name, hence `typeStr`). -/
structure DecMessage where
  id : Nat
  typeStr : String
  responseCode : Nat
  opcode : Option String
  authoritative : Bool
  truncated : Bool
  recursionDesired : Bool
  recursionAvailable : Bool
  authenticated : Bool
  checkingDisabled : Bool
  question : List DecRecord
  answer : List DecRecord
  authority : List DecRecord
  additional : List DecRecord
deriving DecidableEq, Repr

/-- The opcode name table of `message.js` (index 3 is `null`). -/
def opcodeNames : List (Option String) :=
  [some "query", some "iquery", some "status", none, some "notify", some "update"]

/-- `DNSMessage.parse` from `message.js`, i.e. the library's `decode`. -/
def decodeMessage (body : Bytes) : Except DErr DecMessage := do
  let id ← r16 body 0
  let b2 ← r8 body 2
  let b3 ← r8 body 3
  let secs ← sections body
  let question ← secs.question.mapM (dnsRecordParse body "question")
  let answer ← secs.answer.mapM (dnsRecordParse body "answer")
  let authority ← secs.authority.mapM (dnsRecordParse body "authority")
  let additional ← secs.additional.mapM (dnsRecordParse body "additional")
  pure
    { id := id,
      typeStr := if b2 >>> 7 = 0 then "request" else "response",
      responseCode := b3 &&& 0xf,
      opcode := (opcodeNames.get? ((b2 >>> 3) &&& 0xf)).join,
      authoritative := (b2 >>> 2) &&& 1 ≠ 0,
      truncated := (b2 >>> 1) &&& 1 ≠ 0,
      recursionDesired := b2 &&& 1 ≠ 0,
      recursionAvailable := b3 >>> 7 ≠ 0,
      authenticated := (b3 >>> 5) &&& 1 ≠ 0,
      checkingDisabled := (b3 >>> 4) &&& 1 ≠ 0,
      question := question, answer := answer, authority := authority,
      additional := additional }

/-! ## Properties of the name decoder (claims C1 and C4) -/

theorem nameLoop_true_length (full : Bytes) :
    ∀ (fuel : Nat) (buf : Bytes) (cursor : Nat) (visited : List Nat)
      (numOctets offset : Nat) (segs s : List Bytes) (n : Nat),
      nameLoop full fuel buf cursor visited true numOctets offset segs = .ok (s, n) →
      n = numOctets := by
  intro fuel
  induction fuel with
  | zero =>
    intro buf cursor visited numOctets offset segs s n h
    simp [nameLoop] at h
  | succ fuel ih =>
    intro buf cursor visited numOctets offset segs s n h
    rw [nameLoop] at h
    split at h
    · simp at h
    · split at h
      · split at h
        · simp at h
        · split at h
          · simp at h
          · split at h
            · simp at h
            · exact ih _ _ _ _ _ _ _ _ h
      · split at h
        · split at h
          · simp at h
            obtain ⟨-, h2⟩ := h
            omega
          · exact ih _ _ _ _ _ _ _ _ h
        · simp at h

theorem walkConsumed_pointer {buf : Bytes} {p byte b2 : Nat}
    (h1 : read8 buf p = some byte) (hp : byte &&& 0xc0 = 0xc0)
    (h2 : read8 buf (p + 1) = some b2) :
    walkConsumed buf p = some 2 := by
  rw [walkConsumed]
  split
  next heq => rw [h1] at heq; cases heq
  next b heq =>
    rw [h1] at heq
    injection heq with hb
    subst hb
    rw [if_pos hp]
    split
    next heq2 => rw [h2] at heq2; cases heq2
    next => rfl

theorem walkConsumed_terminator {buf : Bytes} {p byte : Nat}
    (h1 : read8 buf p = some byte) (hlab : byte &&& 0xc0 = 0)
    (hz : byte &&& 0x3f = 0) :
    walkConsumed buf p = some 1 := by
  have hne : ¬ (byte &&& 0xc0 = 0xc0) := by
    intro hc
    rw [hlab] at hc
    exact absurd hc (by decide)
  rw [walkConsumed]
  split
  next heq => rw [h1] at heq; cases heq
  next b heq =>
    rw [h1] at heq
    injection heq with hb
    subst hb
    rw [if_neg hne, if_pos hlab, if_pos hz]

theorem walkConsumed_label {buf : Bytes} {p byte m : Nat}
    (h1 : read8 buf p = some byte) (hlab : byte &&& 0xc0 = 0)
    (hz : ¬ (byte &&& 0x3f = 0))
    (hw : walkConsumed buf (p + 1 + (byte &&& 0x3f)) = some m) :
    walkConsumed buf p = some (1 + (byte &&& 0x3f) + m) := by
  have hne : ¬ (byte &&& 0xc0 = 0xc0) := by
    intro hc
    rw [hlab] at hc
    exact absurd hc (by decide)
  rw [walkConsumed]
  split
  next heq => rw [h1] at heq; cases heq
  next b heq =>
    rw [h1] at heq
    injection heq with hb
    subst hb
    rw [if_neg hne, if_pos hlab, if_neg hz]
    split
    next heqw => rw [hw] at heqw; cases heqw
    next m2 heqw =>
      rw [hw] at heqw
      injection heqw with hm
      subst hm
      rfl

theorem nameLoop_false_length (full : Bytes) :
    ∀ (fuel : Nat) (buf : Bytes) (cursor : Nat) (visited : List Nat)
      (numOctets offset : Nat) (segs s : List Bytes) (n : Nat),
      offset ≤ cursor →
      nameLoop full fuel buf cursor visited false numOctets offset segs = .ok (s, n) →
      ∃ m, walkConsumed buf cursor = some m ∧ n = cursor - offset + m := by
  intro fuel
  induction fuel with
  | zero =>
    intro buf cursor visited numOctets offset segs s n _ h
    simp [nameLoop] at h
  | succ fuel ih =>
    intro buf cursor visited numOctets offset segs s n hoff h
    rw [nameLoop] at h
    split at h
    · simp at h
    next byte heq1 =>
      split at h
      next hptr =>
        split at h
        · simp at h
        next b2 heq2 =>
          split at h
          next => simp at h
          next hoob =>
            split at h
            next => simp at h
            next hmem =>
              have hn := nameLoop_true_length full fuel _ _ _ _ _ _ _ _ h
              refine ⟨2, walkConsumed_pointer heq1 hptr heq2, ?_⟩
              simp at hn
              omega
      next hptr =>
        split at h
        next hlab =>
          split at h
          next hz =>
            simp at h
            obtain ⟨-, h2⟩ := h
            exact ⟨1, walkConsumed_terminator heq1 hlab hz, by omega⟩
          next hz =>
            obtain ⟨m, hw, hm⟩ := ih _ _ _ _ _ _ _ _ (by omega) h
            exact ⟨1 + (byte &&& 0x3f) + m, walkConsumed_label heq1 hlab hz hw, by omega⟩
        next hlab => simp at h

/-- Claim C4: for every successfully decoded domain name, the octet count returned
by `compileName` equals the number of octets consumed in the original stream up to
and including the first compression pointer (two octets for that pointer), and,
when no pointer is met, the total number of octets consumed including the
terminating zero label — as captured by the spec-side `walkConsumed`. -/
theorem c4_name_length_counts_stream_octets
    (fullMessage : Bytes) (slice : Option Bytes) (offset : Nat)
    (segs : List Bytes) (n : Nat)
    (h : compileName fullMessage slice offset = .ok (segs, n)) :
    walkConsumed (slice.getD fullMessage) offset = some n := by
  rw [compileName] at h
  split at h
  · simp at h
  · obtain ⟨m, hw, hm⟩ :=
      nameLoop_false_length fullMessage _ _ offset [] 1 offset [] segs n
        (Nat.le_refl offset) h
    rw [hw]
    congr 1
    omega

/-- Witness for C4: a pointerless name consumes all five octets including the
terminator, and a name that immediately follows a pointer counts exactly the two
pointer octets. -/
theorem c4_name_length_witness :
    walkConsumed [3, 97, 98, 99, 0] 0 = some 5
    ∧ walkConsumed [1, 97, 0, 0xc0, 0, 0] 3 = some 2 := by
  constructor
  · exact c4_name_length_counts_stream_octets [3, 97, 98, 99, 0] none 0
      [[97, 98, 99]] 5 (by rfl)
  · exact c4_name_length_counts_stream_octets [1, 97, 0, 0xc0, 0, 0] none 3
      [[97]] 2 (by rfl)

/-- The packet of spec §8.3: a question name made of two compression pointers
each referencing the other's offset. -/
def cyclePacket : Bytes :=
  [0, 1, 0, 0, 0, 1, 0, 0, 0, 0, 0, 0, 0xc0, 14, 0xc0, 12]

/-- Claim C1: a compression pointer whose 14-bit offset is at least the message
length fails the decode with `InvalidPointer`; revisiting a pointer target
already visited while decoding the same name fails with `PointerCycle`; and the
concrete two-pointer cycle packet fails `decode` with `PointerCycle`. -/
theorem c1_pointer_error_handling :
    (∀ (full buf : Bytes) (fuel cursor : Nat) (visited : List Nat) (metPointer : Bool)
       (numOctets offset : Nat) (segs : List Bytes) (byte b2 : Nat),
       read8 buf cursor = some byte → byte &&& 0xc0 = 0xc0 →
       read8 buf (cursor + 1) = some b2 →
       full.length ≤ (byte &&& 0x3f) * 256 + b2 →
       nameLoop full (fuel + 1) buf cursor visited metPointer numOctets offset segs =
         .error .invalidPointer)
    ∧ (∀ (full buf : Bytes) (fuel cursor : Nat) (visited : List Nat) (metPointer : Bool)
       (numOctets offset : Nat) (segs : List Bytes) (byte b2 : Nat),
       read8 buf cursor = some byte → byte &&& 0xc0 = 0xc0 →
       read8 buf (cursor + 1) = some b2 →
       (byte &&& 0x3f) * 256 + b2 < full.length →
       (byte &&& 0x3f) * 256 + b2 ∈ visited →
       nameLoop full (fuel + 1) buf cursor visited metPointer numOctets offset segs =
         .error .pointerCycle)
    ∧ decodeMessage cyclePacket = .error .pointerCycle := by
  refine ⟨?_, ?_, by rfl⟩
  · intro full buf fuel cursor visited metPointer numOctets offset segs byte b2
      h1 hp h2 hge
    simp [nameLoop, h1, hp, h2, hge]
  · intro full buf fuel cursor visited metPointer numOctets offset segs byte b2
      h1 hp h2 hlt hmem
    have hnot : ¬ full.length ≤ (byte &&& 0x3f) * 256 + b2 := by omega
    simp [nameLoop, h1, hp, h2, hnot, hmem]

/-! ## Registry round trip (claim C10) -/

deriving instance DecidableEq for Except

/-- Boolean check that one type-table entry round-trips. -/
def typeEntryOk (p : Nat × Option String) : Bool :=
  match p.2 with
  | some lab =>
    decide (typeToLabel p.1 = .ok (some lab)) && decide (typeToNumber lab = .ok p.1)
  | none => true

/-- Boolean check that one class-table entry with key ≥ 1 round-trips. -/
def classEntryOk (p : Nat × Option String) : Bool :=
  match p.2 with
  | some lab =>
    !(decide (1 ≤ p.1)) ||
      (decide (classToLabel p.1 = .ok (some lab)) && decide (classToNumber lab = .ok p.1))
  | none => true

/-- Claim C10: for every numeric RR type code and RR class code `v` between 1 and
65535 for which the registry table defines a concrete label (not `null` and not
the computed "Private use" fallback), code → label → code returns `v`. -/
theorem c10_registry_round_trip :
    (∀ v l, tblGet v TYPE_LABELS = some (some l) → 1 ≤ v → v ≤ 65535 →
      typeToLabel v = .ok (some l) ∧ typeToNumber l = .ok v)
    ∧ (∀ v l, tblGet v CLASS_LABELS = some (some l) → 1 ≤ v → v ≤ 65535 →
      classToLabel v = .ok (some l) ∧ classToNumber l = .ok v) := by
  constructor
  · intro v l hl hv _
    have hmem := tblGet_mem hl
    have hall : TYPE_LABELS.all typeEntryOk = true := by decide
    have hone := List.all_eq_true.mp hall _ hmem
    simp only [typeEntryOk, Bool.and_eq_true, decide_eq_true_eq] at hone
    exact hone
  · intro v l hl hv _
    have hmem := tblGet_mem hl
    have hall : CLASS_LABELS.all classEntryOk = true := by decide
    have hone := List.all_eq_true.mp hall _ hmem
    simp only [classEntryOk, Bool.or_eq_true, Bool.and_eq_true, Bool.not_eq_true',
      decide_eq_true_eq, decide_eq_false_iff_not] at hone
    rcases hone with hbad | hgood
    · exact absurd hv hbad
    · exact hgood

/-- Witness for C10: concrete round trips, including the class label "reserved"
which appears twice in the table and round-trips only at 65535. -/
theorem c10_registry_round_trip_witness :
    (typeToLabel 28 = .ok (some "AAAA") ∧ typeToNumber "AAAA" = .ok 28)
    ∧ (classToLabel 65535 = .ok (some "reserved") ∧ classToNumber "reserved" = .ok 65535) := by
  constructor
  · exact c10_registry_round_trip.1 28 "AAAA" (by rfl) (by decide) (by decide)
  · exact c10_registry_round_trip.2 65535 "reserved" (by rfl) (by decide) (by decide)

/-! ## Name encoder (`encode.js`)

Domain names are char lists; the compression dictionary maps the remaining
domain string to the absolute offset it was recorded at. -/

/-- JS `\s` (the whitespace class used by the label regex), on code points. -/
def isSpaceJS (c : Char) : Bool :=
  c.toNat = 32 || c.toNat = 9 || c.toNat = 10 || c.toNat = 13 || c.toNat = 11 ||
  c.toNat = 12 || c.toNat = 0xa0 || c.toNat = 0x1680 ||
  (0x2000 ≤ c.toNat && c.toNat ≤ 0x200a) || c.toNat = 0x2028 || c.toNat = 0x2029 ||
  c.toNat = 0x202f || c.toNat = 0x205f || c.toNat = 0x3000 || c.toNat = 0xfeff

/-- A character allowed inside a label: `[^.\s]`. -/
def labelChar (c : Char) : Bool := !(c.toNat = 46) && !(isSpaceJS c)

/-- The anchored regex `^([^.\s]{1,63})(?:\.([^.\s].*))?$` of `encodeName`:
`some (label, rest)` on a match (`rest = []` when group 2 is absent). -/
def splitDomain (domain : List Char) : Option (List Char × List Char) :=
  if (domain.takeWhile labelChar).length = 0 ∨ 63 < (domain.takeWhile labelChar).length then
    none
  else
    match domain.drop (domain.takeWhile labelChar).length with
    | [] => some (domain.takeWhile labelChar, [])
    | c :: rest2 =>
      if c = '.' then
        match rest2 with
        | [] => none
        | c2 :: _ =>
          if labelChar c2 then some (domain.takeWhile labelChar, rest2) else none
      else none

theorem splitDomain_rest_length {d seg rest : List Char}
    (h : splitDomain d = some (seg, rest)) : rest.length < d.length := by
  have htk : (d.takeWhile labelChar).length ≤ d.length := by
    simpa using List.Sublist.length_le (List.takeWhile_sublist labelChar)
  rw [splitDomain] at h
  split at h
  · cases h
  next hrun =>
    have hrun1 : 1 ≤ (d.takeWhile labelChar).length := by omega
    split at h
    next hdrop =>
      injection h with h'
      injection h' with h1 h2
      subst h2
      have hlen := congrArg List.length hdrop
      rw [List.length_drop] at hlen
      simp only [List.length_nil] at hlen ⊢
      omega
    next c rest2 hdrop =>
      split at h
      · split at h
        · cases h
        · split at h
          · injection h with h'
            injection h' with h1 h2
            subst h2
            have hlen := congrArg List.length hdrop
            rw [List.length_drop] at hlen
            simp only [List.length_cons] at hlen ⊢
            omega
          · cases h
      · cases h

/-- The compression dictionary (`this.domains`). -/
abbrev Dict := List (List Char × Nat)

/-- Dictionary read; the head is the most recent write, matching JS overwrite. -/
def dGet : Dict → List Char → Option Nat
  | [], _ => none
  | (k, v) :: rest, key => if key = k then some v else dGet rest key

/-- Dictionary write (`this.domains[domain] = position`). -/
def dSet (d : Dict) (k : List Char) (v : Nat) : Dict := (k, v) :: d

/-- The `while (domain.length > 0)` loop of `Encoder.encodeName`, with fuel (the
remaining domain strictly shrinks at every step, so one more than its length is
ample).  The JS test `if (pointer && compress && pointer <= 0x3fff)` treats both
a missing entry and a recorded offset 0 as falsy, which `(dGet …).getD 0 ≠ 0`
captures. -/
def encodeNameLoop (fuel : Nat) (domains : Dict) (position : Nat) (domain : List Char)
    (compress : Bool) : Except EErr (List Nat × Dict) :=
  match fuel with
  | 0 => .error .outOfFuelE
  | fuel + 1 =>
    if domain = [] then .ok ([0], domains)
    else
      if (dGet domains domain).getD 0 ≠ 0 ∧ compress = true ∧
          (dGet domains domain).getD 0 ≤ 0x3fff then
        .ok ([0xc0 + ((dGet domains domain).getD 0 >>> 8),
              (dGet domains domain).getD 0 &&& 0xff], domains)
      else
        match splitDomain domain with
        | none => .error .invalidName
        | some (seg, rest) =>
          match encodeNameLoop fuel (dSet domains domain position)
              (position + (seg.length + 1)) rest compress with
          | .ok (bytes, d2) =>
            .ok ((seg.length :: seg.map (fun c => c.toNat % 128)) ++ bytes, d2)
          | .error e => .error e

/-- `fqdn.replace(/\.$/, "")`. -/
def stripTrailingDot (fqdn : List Char) : List Char :=
  if fqdn.getLast? = some '.' then fqdn.dropLast else fqdn

/-- The encoder's mutable cursor and compression dictionary. -/
structure EncState where
  position : Nat
  domains : Dict

/-- `Encoder.encodeName(fqdn, shift, {compress})`. -/
def encodeName (st : EncState) (fqdn : String) (shift : Nat) (compress : Bool) :
    Except EErr (List Nat × Dict) :=
  encodeNameLoop ((stripTrailingDot fqdn.toList).length + 1) st.domains
    (st.position + shift) (stripTrailingDot fqdn.toList) compress

/-- `buf16`: `writeUInt16BE` throws out of range. -/
def buf16 (value : Nat) : Except EErr (List Nat) :=
  if 0xffff < value then .error .outOfRange
  else .ok [value >>> 8, value &&& 0xff]

/-- `buf32`: `writeUInt32BE` throws out of range. -/
def buf32 (value : Nat) : Except EErr (List Nat) :=
  if 0xffffffff < value then .error .outOfRange
  else .ok [value >>> 24, (value >>> 16) &&& 0xff, (value >>> 8) &&& 0xff, value &&& 0xff]

/-! ## Record payload encoders (`Encoder.record` switch) -/

/-- EDNS data carried on a record handed to the encoder or server. -/
structure EdnsData where
  udpSize : Nat
  extendedResult : Nat
  version : Nat
  flagDO : Bool
  flags : Nat
  options : List (Nat × Bytes)
deriving DecidableEq, Repr

/-- In-memory record data handed to the encoder (`record.data` shapes). -/
inductive RecData where
  | nothing
  | str (s : String)
  | strList (l : List String)
  | mxData (weight : Nat) (name : String)
  | soaData (mname rname : String) (serial refresh retry expire ttl : Nat)
  | srvData (priority weight port : Nat) (target : String)
  | dsData (keyTag algorithm digestType : Nat) (digest : List Nat)
deriving DecidableEq, Repr

/-- An in-memory record as the encoder and server see it. -/
structure EncRecord where
  name : String
  cls : String
  type : String
  ttl : Option Nat
  data : RecData
  edns : Option EdnsData
deriving DecidableEq, Repr

/-- Digit string to number (`Number(match[i])` on an all-digits capture). -/
def digitsToNat (l : List Char) : Nat :=
  l.foldl (fun acc c => acc * 10 + (c.toNat - 48)) 0

/-- `\d` on code points. -/
def isDigitChar (c : Char) : Bool := 48 ≤ c.toNat && c.toNat ≤ 57

/-- `string.split(sep)` on character lists (JS string split with a single
separator character; an empty string yields one empty part). -/
def splitOnChar (sep : Char) : List Char → List (List Char)
  | [] => [[]]
  | c :: rest =>
    if c = sep then [] :: splitOnChar sep rest
    else
      match splitOnChar sep rest with
      | [] => [[c]]
      | h :: t => (c :: h) :: t

/-- The `^(\d+)\.(\d+)\.(\d+)\.(\d+)$` match of the `IN A` branch. -/
def parseIPv4 (s : String) : Option (List Nat) :=
  let parts := splitOnChar '.' s.toList
  if (parts.length == 4 && parts.all (fun p => !p.isEmpty && p.all isDigitChar)) = true then
    some (parts.map digitsToNat)
  else none

/-- `[0-9a-f]` case-insensitively, on code points. -/
def isHexChar (c : Char) : Bool :=
  isDigitChar c || (97 ≤ c.toNat && c.toNat ≤ 102) || (65 ≤ c.toNat && c.toNat ≤ 70)

def hexVal (c : Char) : Nat :=
  if isDigitChar c then c.toNat - 48
  else if (97 ≤ c.toNat && c.toNat ≤ 102) = true then c.toNat - 87
  else c.toNat - 55

/-- `("0000" + pair).slice(-4)`. -/
def lastFour (l : List Char) : List Char := l.drop (l.length - 4)

/-- One group of the `IN AAAA` branch: pad, keep the last four characters,
require hex, and emit two octets. -/
def encodeAAAAGroup (pair : List Char) : Except EErr (List Nat) :=
  match lastFour ('0' :: '0' :: '0' :: '0' :: pair) with
  | [a, b, c, d] =>
    if (isHexChar a && isHexChar b && isHexChar c && isHexChar d) = true then
      .ok [hexVal a * 16 + hexVal b, hexVal c * 16 + hexVal d]
    else .error .badData
  | _ => .error .badData

/-- UTF-8 encoding of one character. -/
def utf8EncodeChar (c : Char) : List Nat :=
  if c.toNat < 0x80 then [c.toNat]
  else if c.toNat < 0x800 then
    [0xc0 ||| (c.toNat >>> 6), 0x80 ||| (c.toNat &&& 0x3f)]
  else if c.toNat < 0x10000 then
    [0xe0 ||| (c.toNat >>> 12), 0x80 ||| ((c.toNat >>> 6) &&& 0x3f),
     0x80 ||| (c.toNat &&& 0x3f)]
  else
    [0xf0 ||| (c.toNat >>> 18), 0x80 ||| ((c.toNat >>> 12) &&& 0x3f),
     0x80 ||| ((c.toNat >>> 6) &&& 0x3f), 0x80 ||| (c.toNat &&& 0x3f)]

/-- UTF-8 octets of a string (`Buffer.from(string)`). -/
def utf8Bytes (s : String) : List Nat := s.toList.flatMap utf8EncodeChar

/-- `parts[0].replace(/\./g, "\\.")`. -/
def escapeDots (s : List Char) : List Char :=
  s.flatMap (fun c => if c = '.' then ['\\', '.'] else [c])

/-- The `IN SOA` mail-notation fixup: split the rname on "@", escape dots in the
local part, and rejoin everything with ".". -/
def soaMail (rname : String) : String :=
  match splitOnChar '@' rname.toList with
  | [] => rname
  | first :: rest =>
    String.mk (List.intercalate ['.'] (escapeDots first :: rest))

/-- The RDATA `switch` of `Encoder.record`, returning the (not yet masked)
octet list and the updated compression dictionary.  Data of a shape the JS
would crash on (for example `record.data.match` on a non-string) is `badData`. -/
def encodeRData (st : EncState) (record : EncRecord) : Except EErr (List Nat × Dict) :=
  let kind := record.cls ++ " " ++ record.type
  if kind = "IN A" then
    match record.data with
    | .nothing =>
      match parseIPv4 "0.0.0.0" with
      | some l => .ok (l, st.domains)
      | none => .error .badData
    | .str s =>
      match parseIPv4 (if s = "" then "0.0.0.0" else s) with
      | some l => .ok (l, st.domains)
      | none => .error .badData
    | _ => .error .badData
  else if kind = "IN AAAA" then
    match record.data with
    | .nothing => .error .badData -- ("").split(":") has 1 part, not 8
    | .str s =>
      let groups := splitOnChar ':' s.toList
      if groups.length ≠ 8 then .error .badData
      else do
        let bs ← groups.mapM encodeAAAAGroup
        pure (bs.flatten, st.domains)
    | _ => .error .badData
  else if kind = "IN MX" then
    match record.data with
    | .mxData weight name => do
      let wBuf ← buf16 weight
      let (nBuf, d2) ← encodeName st name (2 + 2) true
      pure (wBuf ++ nBuf, d2)
    | _ => .error .badData
  else if kind = "IN SOA" then
    match record.data with
    | .soaData mname rname serial refresh retry expire ttl => do
      let mail := soaMail rname
      let (mBuf, d1) ← encodeName st mname 2 true
      let (rBuf, d2) ← encodeName { st with domains := d1 } mail (2 + mBuf.length) true
      let serialBuf ← buf32 serial
      let refreshBuf ← buf32 refresh
      let retryBuf ← buf32 retry
      let expireBuf ← buf32 expire
      let ttlBuf ← buf32 ttl
      pure (mBuf ++ rBuf ++ serialBuf ++ refreshBuf ++ retryBuf ++ expireBuf ++ ttlBuf, d2)
    | _ => .error .badData
  else if kind = "IN NS" ∨ kind = "IN PTR" ∨ kind = "IN CNAME" then
    match record.data with
    | .str s => encodeName st s 2 true
    | _ => .error .badData
  else if kind = "IN TXT" then
    match record.data with
    | .str s =>
      .ok ((utf8Bytes s).length :: utf8Bytes s, st.domains)
    | .strList l =>
      .ok (l.flatMap (fun p => (utf8Bytes p).length :: utf8Bytes p), st.domains)
    | _ => .error .badData
  else if kind = "IN SRV" then
    match record.data with
    | .srvData priority weight port target => do
      let pBuf ← buf16 priority
      let wBuf ← buf16 weight
      let portBuf ← buf16 port
      let (tBuf, d2) ← encodeName st target (2 + 6) false
      pure (pBuf ++ wBuf ++ portBuf ++ tBuf, d2)
    | _ => .error .badData
  else if kind = "IN DS" then
    match record.data with
    | .dsData keyTag algorithm digestType digest => do
      let kBuf ← buf16 keyTag
      pure (kBuf ++ [algorithm] ++ [digestType] ++ digest, st.domains)
    | _ => .error .badData
  else if kind = "NONE A" then
    .ok ([], st.domains)
  else .error .unsupportedType

/-- `Encoder.record`: one regular record, returning its chunk and the updated
encoder state.  The final `Buffer.from(rdata)` masks every octet with 0xFF. -/
def encodeRecord (st : EncState) (sectionName : String) (record : EncRecord) :
    Except EErr (List Nat × EncState) := do
  let (nameBuf, d1) ← encodeName st record.name 0 true
  let st : EncState := { position := st.position + nameBuf.length, domains := d1 }
  let typeNum ← typeToNumber record.type
  let classNum ← classToNumber record.cls
  let typeBuf ← buf16 typeNum
  let st : EncState := { st with position := st.position + 2 }
  let classBuf ← buf16 classNum
  let st : EncState := { st with position := st.position + 2 }
  if sectionName = "question" then
    pure (nameBuf ++ typeBuf ++ classBuf, st)
  else do
    let ttlBuf ← buf32 (record.ttl.getD 0) -- record.ttl || 0
    let st : EncState := { st with position := st.position + 4 }
    let (rdata, d2) ← encodeRData st record
    let st : EncState := { st with domains := d2 }
    let lenBuf ← buf16 rdata.length
    let st : EncState := { st with position := st.position + 2 + rdata.length }
    pure (nameBuf ++ typeBuf ++ classBuf ++ ttlBuf ++ lenBuf ++ rdata.map (· % 256), st)

/-- One EDNS option TLV (`code > -1 && Buffer.isBuffer(data)` always holds here). -/
def encodeEdnsOption (option : Nat × Bytes) : Except EErr (List Nat) := do
  let codeBuf ← buf16 option.1
  let lenBuf ← buf16 option.2.length
  pure (codeBuf ++ lenBuf ++ option.2)

/-- `Encoder.ednsRecord`: the OPT pseudo-record.  Note the source packs the
32-bit `flags` word with `writeUInt16BE`, which throws whenever version or
extended result are non-zero, and advances `position` only past the name and
the fixed 8 octets. -/
def encodeEdnsRecord (st : EncState) (record : EncRecord) :
    Except EErr (List Nat × EncState) := do
  let edns ← match record.edns with
    | some e => pure e
    | none => .error .badData
  let (nameBuf, d1) ← encodeName st "" 0 true
  let st : EncState := { position := st.position + nameBuf.length, domains := d1 }
  let flags := ((edns.extendedResult &&& 0xff) <<< 24) + ((edns.version &&& 0xff) <<< 16) +
    (if edns.flagDO then 0x8000 else 0)
  let typeBuf ← buf16 41
  let sizeBuf ← buf16 edns.udpSize
  let flagsBuf ← buf16 flags
  let st : EncState := { st with position := st.position + 8 }
  let optionChunks ← edns.options.mapM encodeEdnsOption
  let optionBytes := optionChunks.flatten
  let lenBuf ← buf16 optionBytes.length
  pure (nameBuf ++ typeBuf ++ sizeBuf ++ flagsBuf ++ [0, 0] ++ lenBuf ++ optionBytes, st)

/-- An in-memory message as handed to the encoder. -/
structure EncMessage where
  id : Nat
  typeStr : String
  opcode : String
  authoritative : Bool
  truncated : Bool
  recursionDesired : Bool
  recursionAvailable : Bool
  authenticated : Bool
  checkingDisabled : Bool
  responseCode : Nat
  question : List EncRecord
  answer : List EncRecord
  authority : List EncRecord
  additional : List EncRecord
deriving DecidableEq, Repr

/-- `["query","iquery","status",null,"notify","update"].indexOf(msg.opcode)`. -/
def opcodeIndex (s : String) : Option Nat :=
  if s = "query" then some 0
  else if s = "iquery" then some 1
  else if s = "status" then some 2
  else if s = "notify" then some 4
  else if s = "update" then some 5
  else none

/-- Encode the records of one section in order, dispatching EDNS records. -/
def encodeSectionRecords (sectionName : String) :
    EncState → List EncRecord → Except EErr (List (List Nat) × EncState)
  | st, [] => .ok ([], st)
  | st, r :: rest => do
    let (chunk, st2) ←
      if r.edns.isSome then encodeEdnsRecord st r else encodeRecord st sectionName r
    let (chunks, st3) ← encodeSectionRecords sectionName st2 rest
    pure (chunk :: chunks, st3)

/-- `Encoder.message` followed by `toBinary`: header, four sections, counts. -/
def encoderMessage (msg : EncMessage) : Except EErr (List Nat) := do
  let idBuf ← buf16 msg.id
  let opcode ← match opcodeIndex msg.opcode with
    | some op => pure op
    | none => .error .unknownOpcode
  let byte2 := (if msg.typeStr = "response" then 0x80 else 0) |||
    (if msg.authoritative then 0x04 else 0) ||| (if msg.truncated then 0x02 else 0) |||
    (if msg.recursionDesired then 0x01 else 0) ||| ((opcode &&& 0x0f) <<< 3)
  let byte3 := (if msg.recursionAvailable then 0x80 else 0) |||
    (if msg.authenticated then 0x20 else 0) |||
    (if msg.checkingDisabled then 0x10 else 0) ||| (msg.responseCode &&& 0x0f)
  let st : EncState := { position := 12, domains := [] }
  let (qChunks, st1) ← encodeSectionRecords "question" st msg.question
  let (aChunks, st2) ← encodeSectionRecords "answer" st1 msg.answer
  let (nChunks, st3) ← encodeSectionRecords "authority" st2 msg.authority
  let (rChunks, _) ← encodeSectionRecords "additional" st3 msg.additional
  let qc ← buf16 qChunks.length
  let ac ← buf16 aChunks.length
  let nc ← buf16 nChunks.length
  let rc ← buf16 rChunks.length
  pure (idBuf ++ [byte2, byte3] ++ qc ++ ac ++ nc ++ rc ++
    qChunks.flatten ++ aChunks.flatten ++ nChunks.flatten ++ rChunks.flatten)

/-- The object branch of the `DNSMessage` constructor in `message.js`: after
`Object.assign(this, body)` the loop executes `const records = this[section] = []`
for every section, resetting each section to a fresh empty array and discarding
the records the caller supplied. -/
def constructFromObject (msg : EncMessage) : EncMessage :=
  { msg with question := [], answer := [], authority := [], additional := [] }

/-- The library's `encode` applied to a plain message object: wrap it in a
`DNSMessage` (object branch), then run the encoder. -/
def dnsdEncode (msg : EncMessage) : Except EErr (List Nat) :=
  encoderMessage (constructFromObject msg)

/-! ## Claim C3: name compression picks the longest recorded suffix -/

/-- Spec-side definition for claim C3, following the spec's words: scan the
suffixes of the name from longest (the whole name) to shortest; at the first
one "already recorded with offset ≤ 0x3FFF" emit a 2-octet pointer to that
offset, with all preceding labels emitted literally.  `none` when no suffix is
recorded that way. -/
def specHit (domains : Dict) (domain : List Char) : Option Nat :=
  match dGet domains domain with
  | some p => if p ≤ 0x3fff then some p else none
  | none => none

/-- The suffix scan itself (fuel mirrors `encodeNameLoop`). -/
def specCompressEncode (fuel : Nat) (domains : Dict) (domain : List Char) :
    Option (List Nat) :=
  match fuel with
  | 0 => none
  | fuel + 1 =>
    if domain = [] then none
    else
      match specHit domains domain with
      | some p => some [0xc0 + (p >>> 8), p &&& 0xff]
      | none =>
        match splitDomain domain with
        | none => none
        | some (seg, rest) =>
          match specCompressEncode fuel domains rest with
          | none => none
          | some bs => some ((seg.length :: seg.map (fun c => c.toNat % 128)) ++ bs)

theorem dGet_dSet (d : Dict) (k : List Char) (v : Nat) (s : List Char) :
    dGet (dSet d k v) s = if s = k then some v else dGet d s := rfl

/-- The suffix scan only consults the dictionary on strings no longer than the
name, so agreeing dictionaries produce the same scan. -/
theorem specCompressEncode_congr :
    ∀ (fuel : Nat) (domain : List Char) (d1 d2 : Dict),
      (∀ s : List Char, s.length ≤ domain.length → dGet d1 s = dGet d2 s) →
      specCompressEncode fuel d1 domain = specCompressEncode fuel d2 domain := by
  intro fuel
  induction fuel with
  | zero => intro domain d1 d2 _; rfl
  | succ fuel ih =>
    intro domain d1 d2 hag
    rw [specCompressEncode, specCompressEncode]
    by_cases hdom : domain = []
    · rw [if_pos hdom, if_pos hdom]
    · rw [if_neg hdom, if_neg hdom]
      have hhit : specHit d1 domain = specHit d2 domain := by
        rw [specHit, specHit, hag domain (Nat.le_refl _)]
      cases h2 : specHit d2 domain with
      | some p => simp only [hhit, h2]
      | none =>
        simp only [hhit, h2]
        cases hsplit : splitDomain domain with
        | none => simp only [hsplit]
        | some pr =>
          obtain ⟨seg, rest⟩ := pr
          simp only [hsplit]
          have hrest : rest.length < domain.length := splitDomain_rest_length hsplit
          rw [ih rest d1 d2 (fun s hs => hag s (by omega))]

/-- Refinement core for C3: whenever the spec-side scan finds a recorded suffix
(with every recorded offset positive, as the encoder's `this.position ≥ 12`
guarantees in a message encode), the encoder emits exactly the literal
preceding labels followed by the 2-octet pointer. -/
theorem encodeNameLoop_spec :
    ∀ (fuel : Nat) (domain : List Char) (domains : Dict) (position : Nat) (bs : List Nat),
      domain.length < fuel →
      0 < position →
      (∀ k v, dGet domains k = some v → 0 < v) →
      specCompressEncode fuel domains domain = some bs →
      ∃ d2, encodeNameLoop fuel domains position domain true = .ok (bs, d2) := by
  intro fuel
  induction fuel with
  | zero => intro domain domains position bs hf; omega
  | succ fuel ih =>
    intro domain domains position bs hf hpos hposd hspec
    rw [specCompressEncode] at hspec
    rw [encodeNameLoop]
    by_cases hdom : domain = []
    · rw [if_pos hdom] at hspec
      cases hspec
    · rw [if_neg hdom] at hspec
      rw [if_neg hdom]
      cases hhit : specHit domains domain with
      | some p =>
        simp only [hhit] at hspec
        injection hspec with hbs
        subst hbs
        rw [specHit] at hhit
        cases hget : dGet domains domain with
        | none =>
          simp only [hget] at hhit
          cases hhit
        | some q =>
          simp only [hget] at hhit
          have hq : 0 < q := hposd domain q hget
          by_cases hle : q ≤ 0x3fff
          · rw [if_pos hle] at hhit
            injection hhit with hpq
            subst hpq
            have hcond : (some q : Option Nat).getD 0 ≠ 0 ∧ true = true ∧
                (some q : Option Nat).getD 0 ≤ 0x3fff :=
              ⟨by simp only [Option.getD_some]; omega, rfl,
               by simp only [Option.getD_some]; exact hle⟩
            rw [if_pos hcond]
            exact ⟨domains, by simp⟩
          · rw [if_neg hle] at hhit
            cases hhit
      | none =>
        simp only [hhit] at hspec
        have hcond : ¬ ((dGet domains domain).getD 0 ≠ 0 ∧ true = true ∧
            (dGet domains domain).getD 0 ≤ 0x3fff) := by
          rw [specHit] at hhit
          cases hget : dGet domains domain with
          | none => simp [hget]
          | some q =>
            simp only [hget] at hhit
            by_cases hle : q ≤ 0x3fff
            · rw [if_pos hle] at hhit; cases hhit
            · simp [hget]
              omega
        rw [if_neg hcond]
        cases hsplit : splitDomain domain with
        | none =>
          simp only [hsplit] at hspec
          cases hspec
        | some pr =>
          obtain ⟨seg, rest⟩ := pr
          simp only [hsplit] at hspec
          cases hrec : specCompressEncode fuel domains rest with
          | none =>
            simp only [hrec] at hspec
            cases hspec
          | some bs2 =>
            simp only [hrec] at hspec
            injection hspec with hbs
            subst hbs
            have hrest : rest.length < domain.length := splitDomain_rest_length hsplit
            have hagree : ∀ s : List Char, s.length ≤ rest.length →
                dGet domains s = dGet (dSet domains domain position) s := by
              intro s hs
              have hneq : ¬ (s = domain) := by
                intro hsk
                subst hsk
                omega
              rw [dGet_dSet, if_neg hneq]
            have hrec2 : specCompressEncode fuel (dSet domains domain position) rest =
                some bs2 := by
              rw [← specCompressEncode_congr fuel rest domains
                (dSet domains domain position) hagree]
              exact hrec
            have hposd2 : ∀ k v, dGet (dSet domains domain position) k = some v →
                0 < v := by
              intro k v hk
              rw [dGet_dSet] at hk
              by_cases hkd : k = domain
              · rw [if_pos hkd] at hk
                injection hk with hv
                omega
              · rw [if_neg hkd] at hk
                exact hposd k v hk
            obtain ⟨d2, hcode⟩ := ih rest (dSet domains domain position)
              (position + (seg.length + 1)) bs2 (by omega) (by omega) hposd2 hrec2
            exact ⟨d2, by simp only [hsplit, hcode]⟩

/-- The E6 message of the spec: answer and authority both own `example.com`. -/
def c3Message : EncMessage :=
  { id := 1, typeStr := "response", opcode := "query",
    authoritative := false, truncated := false, recursionDesired := false,
    recursionAvailable := false, authenticated := false, checkingDisabled := false,
    responseCode := 0,
    question := [],
    answer := [{ name := "example.com", cls := "IN", type := "A", ttl := some 3600,
                 data := RecData.str "1.2.3.4", edns := none }],
    authority := [{ name := "example.com", cls := "IN", type := "A", ttl := some 3600,
                    data := RecData.str "5.6.7.8", edns := none }],
    additional := [] }

/-- The expected encoding of `c3Message`: the authority owner name (offset 39)
is the 2-octet pointer `C0 0C` to the answer owner name at offset 12. -/
def c3Expected : List Nat :=
  [0, 1, 0x80, 0, 0, 0, 0, 1, 0, 1, 0, 0,
   7, 101, 120, 97, 109, 112, 108, 101, 3, 99, 111, 109, 0,
   0, 1, 0, 1, 0, 0, 14, 16, 0, 4, 1, 2, 3, 4,
   0xc0, 12, 0, 1, 0, 1, 0, 0, 14, 16, 0, 4, 5, 6, 7, 8]

/-- Claim C3: with compression enabled, whenever some suffix of the name is
already recorded at an offset ≤ 0x3FFF (offsets recorded by a message encode
are all positive), the encoder emits the preceding labels literally followed by
a 2-octet pointer to the longest such recorded suffix; and in the concrete
response whose answer and authority both carry `example.com`, the second
occurrence is exactly the 2-octet pointer `C0 0C` to the first. -/
theorem c3_compression_longest_recorded_suffix :
    (∀ (st : EncState) (fqdn : String) (shift : Nat) (bs : List Nat),
       0 < st.position + shift →
       (∀ k v, dGet st.domains k = some v → 0 < v) →
       specCompressEncode ((stripTrailingDot fqdn.toList).length + 1) st.domains
         (stripTrailingDot fqdn.toList) = some bs →
       ∃ d2, encodeName st fqdn shift true = .ok (bs, d2))
    ∧ encoderMessage c3Message = .ok c3Expected
    ∧ (encoderMessage c3Message).map (fun bs => (bs.drop 39).take 2) = .ok [0xc0, 12] := by
  refine ⟨?_, by decide, by decide⟩
  intro st fqdn shift bs hpos hposd hspec
  exact encodeNameLoop_spec ((stripTrailingDot fqdn.toList).length + 1)
    (stripTrailingDot fqdn.toList) st.domains (st.position + shift) bs
    (Nat.lt_succ_self _) hpos hposd hspec

/-- Witness for C3: the encoder state right before the authority record of
`c3Message` (cursor 39, `example.com` recorded at 12 and `com` at 20) makes the
next `example.com` a pointer to offset 12. -/
theorem c3_compression_witness :
    ∃ d2, encodeName
      ⟨39, [(['c', 'o', 'm'], 20),
            (['e', 'x', 'a', 'm', 'p', 'l', 'e', '.', 'c', 'o', 'm'], 12)]⟩
      "example.com" 0 true = .ok ([0xc0, 12], d2) := by
  refine c3_compression_longest_recorded_suffix.1
    ⟨39, [(['c', 'o', 'm'], 20),
          (['e', 'x', 'a', 'm', 'p', 'l', 'e', '.', 'c', 'o', 'm'], 12)]⟩
    "example.com" 0 [0xc0, 12] (by decide) ?_ (by decide)
  intro k v h
  by_cases h1 : k = ['c', 'o', 'm']
  · simp [dGet, h1] at h
    omega
  · by_cases h2 : k = ['e', 'x', 'a', 'm', 'p', 'l', 'e', '.', 'c', 'o', 'm']
    · simp [dGet, h1, h2] at h
      omega
    · simp [dGet, h1, h2] at h

/-! ## Claim C5: unsupported (class, type) combinations -/

/-- The `(class, type)` kinds the encoder's RDATA switch supports. -/
def supportedKinds : List String :=
  ["IN A", "IN AAAA", "IN MX", "IN SOA", "IN NS", "IN PTR", "IN CNAME", "IN TXT",
   "IN SRV", "IN DS", "NONE A"]

/-- A response with one answer record of kind `IN HINFO` (type 13: a registry
label exists, but the record-data switch has no case for it) with empty RDATA. -/
def c5Packet : Bytes :=
  [0, 1, 0x80, 0, 0, 0, 0, 1, 0, 0, 0, 0,
   1, 97, 0, 0, 13, 0, 1, 0, 0, 0, 0, 0, 0]

/-- Counterexample to claim C5 as stated: decoding a message with a non-question
record whose `(class, type)` is outside the supported set does not succeed with
opaque RDATA bytes — `DNSRecord.parse` throws "Unknown record IN HINFO". -/
theorem c5_unknown_kind_counterexample :
    decodeMessage c5Packet = .error .unknownRecordKind := by rfl

/-- Claim C5 (amended): a non-question record whose class and type both resolve
to concrete registry labels but whose combined kind lies outside the decoder's
switch (the supported set plus `IN OPT`) is rejected by `DNSRecord.parse` with
the "Unknown record" error rather than kept as opaque RDATA — concretely, a
message carrying an `IN HINFO` answer fails to decode — while encoding any
record whose kind is outside the supported set fails with `UnsupportedType`
(provided the earlier steps — name encoding and the class/type label lookups —
succeed, as they do for every kind built from registry labels).  Records whose
numeric type or class has no label at all fail even earlier, with the
"unknown type"/"unknown class" errors, so no unsupported combination ever
decodes to opaque bytes. -/
theorem c5_unknown_kind_amended :
    (∀ (body : Bytes) (sectionName : String) (record : RawRecord)
       (clsNum : Nat) (cls typ : String) (rdata : Bytes),
       sectionName ≠ "question" →
       record.cls = some clsNum →
       classToLabel clsNum = .ok (some cls) →
       typeToLabel record.type = .ok (some typ) →
       record.data = some rdata →
       (cls ++ " " ++ typ) ∉ supportedKinds →
       cls ++ " " ++ typ ≠ "IN OPT" →
       dnsRecordParse body sectionName record = .error .unknownRecordKind)
    ∧ decodeMessage c5Packet = .error .unknownRecordKind
    ∧ (∀ (st : EncState) (sectionName : String) (record : EncRecord)
         (nb : List Nat) (d1 : Dict) (tn cn : Nat),
         sectionName ≠ "question" →
         (record.cls ++ " " ++ record.type) ∉ supportedKinds →
         encodeName st record.name 0 true = .ok (nb, d1) →
         typeToNumber record.type = .ok tn → tn ≤ 0xffff →
         classToNumber record.cls = .ok cn → cn ≤ 0xffff →
         record.ttl.getD 0 ≤ 0xffffffff →
         encodeRecord st sectionName record = .error .unsupportedType) := by
  refine ⟨?_, by rfl, ?_⟩
  · intro body sectionName record clsNum cls typ rdata hsec hclsSome hclsLabel
      htypeLabel hdata hk hOPT
    have hmem : ∀ s, (cls ++ " " ++ typ) = s → s ∈ supportedKinds → False :=
      fun s he hs => hk (he ▸ hs)
    have hA : ¬ (cls ++ " " ++ typ = "IN A") := fun he => hmem _ he (by decide)
    have hAAAA : ¬ (cls ++ " " ++ typ = "IN AAAA") := fun he => hmem _ he (by decide)
    have hNS : ¬ (cls ++ " " ++ typ = "IN NS" ∨ cls ++ " " ++ typ = "IN CNAME" ∨
        cls ++ " " ++ typ = "IN PTR") := by
      rintro (he | he | he) <;> exact hmem _ he (by decide)
    have hTXT : ¬ (cls ++ " " ++ typ = "IN TXT") := fun he => hmem _ he (by decide)
    have hMX : ¬ (cls ++ " " ++ typ = "IN MX") := fun he => hmem _ he (by decide)
    have hSRV : ¬ (cls ++ " " ++ typ = "IN SRV") := fun he => hmem _ he (by decide)
    have hSOA : ¬ (cls ++ " " ++ typ = "IN SOA") := fun he => hmem _ he (by decide)
    have hDS : ¬ (cls ++ " " ++ typ = "IN DS") := fun he => hmem _ he (by decide)
    have hNONE : ¬ (cls ++ " " ++ typ = "NONE A") := fun he => hmem _ he (by decide)
    simp only [dnsRecordParse, hclsSome, hclsLabel, htypeLabel, hdata, Except.bind, bind,
      pure, Except.pure, if_neg hsec, if_neg hA, if_neg hAAAA, if_neg hNS, if_neg hTXT,
      if_neg hMX, if_neg hSRV, if_neg hSOA, if_neg hDS, if_neg hNONE, if_neg hOPT]
  · intro st sectionName record nb d1 tn cn hsec hk hname htype htn hcls hcn httl
    have hmem : ∀ s, (record.cls ++ " " ++ record.type) = s → s ∈ supportedKinds → False :=
      fun s he hs => hk (he ▸ hs)
    have hA : ¬ (record.cls ++ " " ++ record.type = "IN A") :=
      fun he => hmem _ he (by decide)
    have hAAAA : ¬ (record.cls ++ " " ++ record.type = "IN AAAA") :=
      fun he => hmem _ he (by decide)
    have hMX : ¬ (record.cls ++ " " ++ record.type = "IN MX") :=
      fun he => hmem _ he (by decide)
    have hSOA : ¬ (record.cls ++ " " ++ record.type = "IN SOA") :=
      fun he => hmem _ he (by decide)
    have hNS : ¬ (record.cls ++ " " ++ record.type = "IN NS" ∨
        record.cls ++ " " ++ record.type = "IN PTR" ∨
        record.cls ++ " " ++ record.type = "IN CNAME") := by
      rintro (he | he | he) <;> exact hmem _ he (by decide)
    have hTXT : ¬ (record.cls ++ " " ++ record.type = "IN TXT") :=
      fun he => hmem _ he (by decide)
    have hSRV : ¬ (record.cls ++ " " ++ record.type = "IN SRV") :=
      fun he => hmem _ he (by decide)
    have hDS : ¬ (record.cls ++ " " ++ record.type = "IN DS") :=
      fun he => hmem _ he (by decide)
    have hNONE : ¬ (record.cls ++ " " ++ record.type = "NONE A") :=
      fun he => hmem _ he (by decide)
    have hrd : ∀ st2 : EncState, encodeRData st2 record = .error .unsupportedType := by
      intro st2
      rw [encodeRData]
      rw [if_neg hA, if_neg hAAAA, if_neg hMX, if_neg hSOA, if_neg hNS, if_neg hTXT,
        if_neg hSRV, if_neg hDS, if_neg hNONE]
    have hbt : buf16 tn = .ok [tn >>> 8, tn &&& 0xff] := by
      rw [buf16, if_neg (by omega)]
    have hbc : buf16 cn = .ok [cn >>> 8, cn &&& 0xff] := by
      rw [buf16, if_neg (by omega)]
    have hbttl : buf32 (record.ttl.getD 0) =
        .ok [record.ttl.getD 0 >>> 24, (record.ttl.getD 0 >>> 16) &&& 0xff,
             (record.ttl.getD 0 >>> 8) &&& 0xff, record.ttl.getD 0 &&& 0xff] := by
      rw [buf32, if_neg (by omega)]
    simp only [encodeRecord, Except.bind, bind, hname, htype, hcls, hbt, hbc, hbttl,
      if_neg hsec, hrd]

/-- A record of kind `CH A`, which the encoder does not support. -/
def c5ChARecord : EncRecord :=
  { name := "a", cls := "CH", type := "A", ttl := some 60, data := RecData.nothing,
    edns := none }

/-- Witness for the amended C5: a concrete `IN HINFO` answer record is rejected
by `DNSRecord.parse` with the "Unknown record" error, and a concrete `CH A`
record is rejected by the encoder with `UnsupportedType`. -/
theorem c5_unknown_kind_witness :
    dnsRecordParse [] "answer"
      { type := 13, name := some [97], cls := some 1, ttl := some 0,
        data := some [], edns := none } = .error .unknownRecordKind
    ∧ encodeRecord ⟨12, []⟩ "answer" c5ChARecord = .error .unsupportedType :=
  ⟨c5_unknown_kind_amended.1 []
     "answer" { type := 13, name := some [97], cls := some 1, ttl := some 0,
                data := some [], edns := none }
     1 "IN" "HINFO" [] (by decide) rfl (by decide) (by decide) rfl (by decide)
     (by decide),
   c5_unknown_kind_amended.2.2 ⟨12, []⟩ "answer" c5ChARecord [1, 97, 0] [(['a'], 12)]
     1 3 (by decide) (by decide) (by decide) (by decide) (by decide) (by decide)
     (by decide) (by decide)⟩

/-! ## Claim C2: the E1 encode scenario -/

/-- The E1 input message of the spec. -/
def e1Message : EncMessage :=
  { id := 123, typeStr := "request", opcode := "query",
    authoritative := false, truncated := false, recursionDesired := true,
    recursionAvailable := false, authenticated := false, checkingDisabled := false,
    responseCode := 0,
    question := [{ name := "example.com", cls := "IN", type := "TXT", ttl := none,
                   data := RecData.nothing, edns := none }],
    answer := [], authority := [], additional := [] }

/-- The 29 octets the spec expects for E1. -/
def e1Expected : List Nat :=
  [0x00, 0x7b, 0x01, 0x00, 0x00, 0x01, 0x00, 0x00, 0x00, 0x00, 0x00, 0x00,
   0x07, 0x65, 0x78, 0x61, 0x6d, 0x70, 0x6c, 0x65, 0x03, 0x63, 0x6f, 0x6d, 0x00,
   0x00, 0x10, 0x00, 0x01]

/-- Claim C2 (code bug): `encode` on the E1 message object yields only the 12
header octets with zero section counts, because the `DNSMessage` constructor
resets every section to `[]` after `Object.assign`; the expected 29 octets are
exactly what the encoder produces when the question section survives. -/
theorem c2_encode_txt_query_section_wipe :
    dnsdEncode e1Message =
      .ok [0x00, 0x7b, 0x01, 0x00, 0x00, 0x00, 0x00, 0x00, 0x00, 0x00, 0x00, 0x00]
    ∧ dnsdEncode e1Message ≠ .ok e1Expected
    ∧ encoderMessage e1Message = .ok e1Expected := by
  refine ⟨by rfl, by decide, by decide⟩

/-! ## Server façade (`server.js` / part_004)

The TCP receive handler becomes a state-transition function, the zone walk and
`DNSResponse.end` become explicit functions over the response state. -/

/-- Server-side failures (promise rejections and thrown errors). -/
inductive SErr where
  | invalidNameInQuery
  | multiQuestionAnswer
  | invalidEdnsResponse
  | encodeFailed (e : EErr)
  | outOfFuelS
deriving DecidableEq, Repr

/-- The closure state of `onTcpConnection`'s `data` handler. -/
structure TcpState where
  expecting : Int
  received : Nat
  chunks : List (List Nat)
deriving DecidableEq, Repr

/-- Initial receive state: `expecting = -1, received = 0, chunks = []`. -/
def tcpInit : TcpState := { expecting := -1, received := 0, chunks := [] }

/-- `while (chunks[0].length < 2) chunks.splice(0, 2, Buffer.concat(chunks.slice(0, 2)))`,
with fuel (the chunk count strictly decreases; a single short chunk — on which
the JS loop would spin — is unreachable because at least two octets have been
received in total). -/
def mergeHeadChunks : Nat → List (List Nat) → List (List Nat)
  | 0, cs => cs
  | _ + 1, [] => []
  | fuel + 1, a :: rest =>
    if a.length < 2 then
      match rest with
      | [] => a :: rest
      | b :: rest2 => mergeHeadChunks fuel ((a ++ b) :: rest2)
    else a :: rest

/-- JS `buf.slice(start)` for a possibly negative start. -/
def jsSliceFrom (l : List Nat) (start : Int) : List Nat :=
  if start < 0 then l.drop (Int.toNat (Int.ofNat l.length + start))
  else l.drop start.toNat

/-- One `data` event of the TCP receive handler.  After emitting a message the
source computes `received = buf.length - expecting` with `expecting` already
reset to −1 (so `received` becomes `buf.length + 1`) and keeps `buf.slice(-1)`
— the final octet — as the buffered remainder. -/
def onTcpData (st : TcpState) (chunk : List Nat) :
    Except DErr (TcpState × List (List Nat)) := do
  let chunks0 := st.chunks ++ [chunk]
  let received := st.received + chunk.length
  let (expecting, chunks1) ←
    if st.expecting < 0 ∧ 2 ≤ received then
      let merged := mergeHeadChunks chunks0.length chunks0
      match merged with
      | [] => .error .unexpectedEnd
      | c :: _ =>
        match read16 c 0 with
        | none => .error .unexpectedEnd
        | some e => pure ((e : Int), merged)
    else pure (st.expecting, chunks0)
  if -1 < expecting ∧ 2 + expecting ≤ (received : Int) then
    let buf := chunks1.flatten.drop 2
    let message := buf.take expecting.toNat
    let expecting2 : Int := -1
    let received2 := (Int.ofNat buf.length - expecting2).toNat -- buf.length + 1
    let tail := jsSliceFrom buf expecting2
    pure ({ expecting := expecting2, received := received2,
            chunks := if 0 < received2 then [tail] else [] }, [message])
  else
    pure ({ expecting := expecting, received := received, chunks := chunks1 }, [])

/-- Fold a sequence of `data` events, collecting the emitted request messages. -/
def processTcpEvents : TcpState → List (List Nat) → Except DErr (TcpState × List (List Nat))
  | st, [] => .ok (st, [])
  | st, chunk :: rest => do
    let (st2, msgs) ← onTcpData st chunk
    let (st3, msgs2) ← processTcpEvents st2 rest
    pure (st3, msgs ++ msgs2)

/-! ## Zone lookup (`DNSResponse.findZoneForName`, part_004) -/

/-- The server's zone registry (`this.zones`, name → SOA record). -/
abbrev ZoneMap := List (List Char × EncRecord)

def zlookup : ZoneMap → List Char → Option EncRecord
  | [], _ => none
  | (k, r) :: rest, key => if key = k then some r else zlookup rest key

/-- The `while (name.length > 0)` walk of `findZoneForName`, with fuel (the
name strictly shrinks; one more than its length is ample). -/
def findZoneLoop (zones : ZoneMap) : Nat → List Char → Except SErr (Option EncRecord)
  | 0, _ => .error .outOfFuelS
  | _ + 1, [] => .ok none
  | fuel + 1, c :: rest0 =>
    match zlookup zones (c :: rest0) with
    | some r => .ok (some r)
    | none =>
      match splitDomain (c :: rest0) with
      | none => .error .invalidNameInQuery
      | some (_, rest) => findZoneLoop zones fuel rest

/-- `DNSResponse.findZoneForName`. -/
def findZoneForName (zones : ZoneMap) (name : List Char) : Except SErr (Option EncRecord) :=
  findZoneLoop zones (name.length + 1) name

/-! ## `DNSResponse.end` (part_004) -/

/-- Server-side state relevant to `end`. -/
structure ServerState where
  zones : ZoneMap
  optionsTtl : Nat
deriving Repr

/-- A `DNSResponse`: its message fields plus `requestorEDNS`. -/
structure RState where
  msg : EncMessage
  requestorEDNS : Option EdnsData
deriving Repr

/-- The argument shapes `end(value)` distinguishes. -/
inductive EndValue where
  | noValue
  | strValue (s : String)
  | arrValue (l : List EncRecord)
  | objValue (m : EncMessage)

/-- Modelled from the spec: `findEDNSRecords` is called by the server
(`isValidEDNS`, the `DNSResponse` constructor and `end`) but its definition is
missing from the sources (it lives in the repository's `message.js`, whose
copy here lacks it); per spec §4.4 — at most one OPT record in the whole
message, and it must be in the additional section — it returns every EDNS/OPT
record of the message tagged with the section containing it. -/
def findEDNSRecords (m : EncMessage) : List (String × EncRecord) :=
  (m.question.filter (fun r => r.edns.isSome)).map (fun r => ("question", r)) ++
  (m.answer.filter (fun r => r.edns.isSome)).map (fun r => ("answer", r)) ++
  (m.authority.filter (fun r => r.edns.isSome)).map (fun r => ("authority", r)) ++
  (m.additional.filter (fun r => r.edns.isSome)).map (fun r => ("additional", r))

/-- `new DNSResponse(value, connection)` on a plain object: the `DNSMessage`
constructor wipes the sections (`constructFromObject`), the response
constructor installs empty arrays, sets `type = "response"`, and computes
`requestorEDNS` (no EDNS records remain, so it is null). -/
def objResponse (m : EncMessage) : RState :=
  { msg := { constructFromObject m with typeStr := "response" }, requestorEDNS := none }

/-- The answer/authority/additional arrays as `end` mutates them. -/
structure EndSections where
  answer : List EncRecord
  authority : List EncRecord
  additional : List EncRecord
deriving DecidableEq, Repr

/-- `wellFormedRecord`: default a falsy class to "IN" and a falsy TTL (absent
or zero) of a non-EDNS record to `minTTL`. -/
def wellFormedRecord (minTTL : Nat) (record : EncRecord) : EncRecord :=
  let record := if record.cls = "" then { record with cls := "IN" } else record
  if record.ttl.getD 0 = 0 ∧ record.edns.isNone then { record with ttl := some minTTL }
  else record

/-- `soaRecord.data.ttl` (undefined behaves like 0 through the `|| 1`). -/
def soaDataTtl (r : EncRecord) : Nat :=
  match r.data with
  | .soaData _ _ _ _ _ _ ttl => ttl
  | _ => 0

/-- The `for (const question of questions)` loop of `end`. -/
def endQuestionLoop (server : ServerState) (questions : List EncRecord)
    (strValue : Option String) :
    List EncRecord → EndSections → Except SErr EndSections
  | [], secs => .ok secs
  | question :: rest, secs => do
    match ← findZoneForName server.zones question.name.toList with
    | none =>
      -- don't respond to questions regarding zones we aren't authoritative for
      endQuestionLoop server questions strValue rest secs
    | some soaRecord => do
      let secs ←
        if question.cls ++ " " ++ question.type = "IN A" then
          match strValue with
          | some v =>
            if secs.answer.length = 0 then
              if 1 < questions.length then .error .multiQuestionAnswer
              else
                .ok { secs with answer := secs.answer ++
                  [{ name := question.name, cls := "IN", type := "A", ttl := none,
                     data := RecData.str v, edns := none }] }
            else .ok secs
          | none => .ok secs
        else if question.cls ++ " " ++ question.type = "IN SOA" then
          if questions.length = 1 ∧ secs.answer.length = 0 ∧
              soaRecord.name = question.name then
            .ok { secs with answer := secs.answer ++ [soaRecord] }
          else .ok secs
        else .ok secs
      let secs :=
        if questions.length = 1 ∧ secs.answer.length = 0 ∧ secs.authority.length = 0 then
          { secs with authority := secs.authority ++ [soaRecord] }
        else secs
      let minTTL := max (if soaDataTtl soaRecord = 0 then 1 else soaDataTtl soaRecord) 1
      let secs : EndSections :=
        { answer := secs.answer.map (wellFormedRecord minTTL),
          authority := secs.authority.map (wellFormedRecord minTTL),
          additional := secs.additional.map (wellFormedRecord minTTL) }
      endQuestionLoop server questions strValue rest secs

/-- `DNSServer.addEDNSReply` (without the response mutation, which the caller
performs). -/
def addEDNSReply (requestorEDNS : Option EdnsData) : EncRecord :=
  { name := "", cls := "IN", type := "OPT", ttl := none, data := RecData.nothing,
    edns := some
      { udpSize := max
          (match requestorEDNS with
           | some e => if e.udpSize = 0 then 512 else e.udpSize
           | none => 512) 512,
        extendedResult := 0, version := 0, flagDO := false, flags := 0,
        options := [] } }

/-- `ednsResponse.edns.extendedResult = (responseCode & 0xff0) >> 4`. -/
def bumpEdnsRecord (rc : Nat) (r : EncRecord) : EncRecord :=
  match r.edns with
  | some e => { r with edns := some { e with extendedResult := (rc &&& 0xff0) >>> 4 } }
  | none => r

/-- Apply `bumpEdnsRecord` to the first EDNS record in a list, if any. -/
def bumpFirstEdnsInList (rc : Nat) : List EncRecord → List EncRecord × Bool
  | [] => ([], false)
  | r :: rest =>
    if r.edns.isSome then (bumpEdnsRecord rc r :: rest, true)
    else
      match bumpFirstEdnsInList rc rest with
      | (rest2, found) => (r :: rest2, found)

/-- Mutate the first EDNS record of the message (section order). -/
def bumpFirstEdns (rc : Nat) (m : EncMessage) : EncMessage :=
  match bumpFirstEdnsInList rc m.question with
  | (q2, true) => { m with question := q2 }
  | _ =>
    match bumpFirstEdnsInList rc m.answer with
    | (a2, true) => { m with answer := a2 }
    | _ =>
      match bumpFirstEdnsInList rc m.authority with
      | (n2, true) => { m with authority := n2 }
      | _ =>
        match bumpFirstEdnsInList rc m.additional with
        | (r2, _) => { m with additional := r2 }

/-- The EDNS-response block at the end of `end`: ensure an EDNS record when the
requestor sent one or the response code needs the extended byte, reject more
than one EDNS record, and fold the upper response-code bits into it. -/
def applyEdnsBlock (requestorEDNS : Option EdnsData) (rc : Nat) (m : EncMessage) :
    Except SErr EncMessage :=
  let ednsRecords := findEDNSRecords m
  if requestorEDNS.isSome ∨ 0x0f < rc then
    if 1 < ednsRecords.length then .error .invalidEdnsResponse
    else
      let m2 :=
        if ednsRecords.length = 1 then m
        else { m with additional := m.additional ++ [addEDNSReply requestorEDNS] }
      if 0x0f < rc then .ok (bumpFirstEdns rc m2) else .ok m2
  else .ok m

/-- The `that`-selection at the top of `end`. -/
def endThat0 (res : RState) (value : EndValue) : RState :=
  match value with
  | .arrValue l => { res with msg := { res.msg with answer := res.msg.answer ++ l } }
  | .objValue m => objResponse m
  | _ => res

/-- The remaining simple-string value after the `that`-selection. -/
def endStrValue (value : EndValue) : Option String :=
  match value with
  | .strValue s => some s
  | _ => none

/-- `that` after `recursionAvailable = false; authoritative = true`. -/
def endBaseMsg (res : RState) (value : EndValue) : EncMessage :=
  { (endThat0 res value).msg with recursionAvailable := false, authoritative := true }

/-- `DNSResponse.end(value)`: convenience processing followed by the transmit
decision `that.answer.length > 0 || this.authority.length > 0 ? that.toBinary()
: null` (`null` means no DNS payload is transmitted: the UDP path resolves
without sending and the TCP path closes the connection without data).  In the
adoption case (`value` a plain object) `this` is the original response, so the
EDNS block operates on it and the transmit decision reads its authority. -/
def endProcess (server : ServerState) (res : RState) (value : EndValue) :
    Except SErr (Option (List Nat)) := do
  let baseMsg := endBaseMsg res value
  let secs ← endQuestionLoop server baseMsg.question (endStrValue value)
    baseMsg.question ⟨baseMsg.answer, baseMsg.authority, baseMsg.additional⟩
  let thatMsg : EncMessage :=
    { baseMsg with
      answer := secs.answer
      authority := secs.authority
      additional := secs.additional }
  let rc := res.msg.responseCode
  let thatFinal ←
    match value with
    | .objValue _ => do
      let _ ← applyEdnsBlock res.requestorEDNS rc res.msg
      pure thatMsg
    | _ => applyEdnsBlock res.requestorEDNS rc thatMsg
  let thisAuthority :=
    match value with
    | .objValue _ => res.msg.authority
    | _ => secs.authority
  if 0 < thatFinal.answer.length ∨ 0 < thisAuthority.length then
    match encoderMessage thatFinal with
    | .ok bytes => .ok (some bytes)
    | .error e => .error (.encodeFailed e)
  else .ok none

/-! ## Claim C6: TCP framing -/

def c6Query1 : List Nat := [0, 1, 0, 0, 0, 0, 0, 0, 0, 0, 0, 0]
def c6Query2 : List Nat := [0, 2, 0, 0, 0, 0, 0, 0, 0, 0, 0, 0]

/-- One TCP `data` event carrying two complete length-prefixed queries. -/
def c6DoubleChunk : List Nat := [0, 12] ++ c6Query1 ++ [0, 12] ++ c6Query2

/-- Claim C6 (code bug): a single `data` event delivering two complete
length-prefixed queries dispatches only the first request — the handler
processes at most one message per event and then corrupts its state
(`received` becomes leftover+1, `chunks` keeps only the final octet) — while
the second half of the claim (a length prefix split across two events still
parses) does hold. -/
theorem c6_tcp_framing_second_query_lost :
    processTcpEvents tcpInit [c6DoubleChunk] =
      .ok ({ expecting := -1, received := 27, chunks := [[0]] }, [c6Query1])
    ∧ processTcpEvents tcpInit [[0], [12] ++ c6Query1] =
      .ok ({ expecting := -1, received := 13, chunks := [[0]] }, [c6Query1]) :=
  ⟨by decide, by decide⟩

/-! ## Claim C7: the EDNS version gate -/

/-- A request whose additional section carries one OPT record with EDNS
version 1 (udpSize 4096, empty RDATA). -/
def c7Packet : Bytes :=
  [0, 2, 0, 0, 0, 0, 0, 0, 0, 0, 0, 1,
   0, 0, 41, 16, 0, 0, 1, 0, 0, 0, 0]

/-- Claim C7 (code bug): the wire walk recognises the version-1 OPT record,
but constructing the `DNSRequest`/`DNSResponse` throws "Invalid record class"
— `DNSRecord.parse` consults the never-assigned `this.edns` instead of
`record.edns` and then calls `classToLabel(undefined)` — so the server never
reaches `isValidEDNS` and transmits no BADVERS response. -/
theorem c7_badvers_request_crashes_parse :
    (sections c7Packet).map
        (fun s => s.additional.map (fun r => r.edns.map (fun e => e.version))) =
      .ok [some 1]
    ∧ decodeMessage c7Packet = .error .invalidClass :=
  ⟨by rfl, by rfl⟩

/-! ## Claim C8: SOA zone lookup -/

def c8Soa : EncRecord :=
  { name := "example.com", cls := "IN", type := "SOA", ttl := none,
    data := RecData.soaData "ns1.example.com" "admin@example.com" 1 3600 600 86400 300,
    edns := none }

def c8Zones : ZoneMap := [("example.com".toList, c8Soa)]

/-- Claim C8: `findZoneForName` checks the zone map at the full name first and
then strips one leftmost label at a time, returning the first match; with zone
`example.com` registered, `foo.bar.example.com` and `example.com` both find its
SOA and `example.org` finds none. -/
theorem c8_zone_lookup_walks_suffixes :
    (∀ (zones : ZoneMap) (name : List Char) (r : EncRecord) (fuel : Nat),
       name ≠ [] → zlookup zones name = some r →
       findZoneLoop zones (fuel + 1) name = .ok (some r))
    ∧ (∀ (zones : ZoneMap) (name seg rest : List Char) (fuel : Nat),
       zlookup zones name = none → splitDomain name = some (seg, rest) →
       findZoneLoop zones (fuel + 1) name = findZoneLoop zones fuel rest)
    ∧ (∀ (zones : ZoneMap) (fuel : Nat), findZoneLoop zones (fuel + 1) [] = .ok none)
    ∧ findZoneForName c8Zones "foo.bar.example.com".toList = .ok (some c8Soa)
    ∧ findZoneForName c8Zones "example.com".toList = .ok (some c8Soa)
    ∧ findZoneForName c8Zones "example.org".toList = .ok none := by
  refine ⟨?_, ?_, ?_, by decide, by decide, by decide⟩
  · intro zones name r fuel hne hlook
    cases name with
    | nil => exact absurd rfl hne
    | cons c rest0 => simp only [findZoneLoop, hlook]
  · intro zones name seg rest fuel hlook hsplit
    cases name with
    | nil =>
      rw [show splitDomain ([] : List Char) = none from rfl] at hsplit
      cases hsplit
    | cons c rest0 => simp only [findZoneLoop, hlook, hsplit]
  · intro zones fuel
    rfl

/-- Witness for C8: the full-name check fires immediately on an exact match. -/
theorem c8_zone_lookup_witness :
    findZoneLoop c8Zones 1 "example.com".toList = .ok (some c8Soa) :=
  c8_zone_lookup_walks_suffixes.1 c8Zones "example.com".toList c8Soa 0
    (by decide) (by decide)

/-! ## Claim C9: empty answer and authority transmit nothing -/

theorem applyEdnsBlock_inactive (rc : Nat) (m : EncMessage) (hrc : rc ≤ 0x0f) :
    applyEdnsBlock none rc m = .ok m := by
  simp only [applyEdnsBlock]
  rw [if_neg ?_]
  simp only [Option.isSome_none, Bool.false_eq_true, false_or, not_lt]
  omega

theorem endQuestionLoop_uncovered (server : ServerState) (questions : List EncRecord)
    (strValue : Option String) :
    ∀ (remaining : List EncRecord) (secs : EndSections),
      (∀ q ∈ remaining, findZoneForName server.zones q.name.toList = .ok none) →
      endQuestionLoop server questions strValue remaining secs = .ok secs := by
  intro remaining
  induction remaining with
  | nil => intro secs _; rfl
  | cons q rest ih =>
    intro secs hq
    have hfind := hq q (List.mem_cons_self _ _)
    simp only [endQuestionLoop, hfind, Except.bind, bind]
    exact ih secs (fun p hp => hq p (List.mem_cons_of_mem _ hp))

theorem endProcess_no_payload (server : ServerState) (res : RState) (value : EndValue)
    (secs : EndSections)
    (hE : res.requestorEDNS = none)
    (hrc : res.msg.responseCode ≤ 0x0f)
    (hloop : endQuestionLoop server (endBaseMsg res value).question (endStrValue value)
       (endBaseMsg res value).question
       ⟨(endBaseMsg res value).answer, (endBaseMsg res value).authority,
        (endBaseMsg res value).additional⟩ = .ok secs)
    (hans : secs.answer = [])
    (hauth : (match value with
              | .objValue _ => res.msg.authority
              | _ => secs.authority) = []) :
    endProcess server res value = .ok none := by
  cases value with
  | noValue =>
    have hauth2 : secs.authority = [] := hauth
    simp only [endProcess, hloop, hE, Except.bind, bind, applyEdnsBlock_inactive, hrc]
    simp [hans, hauth2]
  | strValue s =>
    have hauth2 : secs.authority = [] := hauth
    simp only [endProcess, hloop, hE, Except.bind, bind, applyEdnsBlock_inactive, hrc]
    simp [hans, hauth2]
  | arrValue l =>
    have hauth2 : secs.authority = [] := hauth
    simp only [endProcess, hloop, hE, Except.bind, bind, applyEdnsBlock_inactive, hrc]
    simp [hans, hauth2]
  | objValue m =>
    have hauth2 : res.msg.authority = [] := hauth
    simp only [endProcess, hloop, hE, Except.bind, bind, pure, Except.pure,
      applyEdnsBlock_inactive, hrc]
    simp [hans, hauth2]

/-- Claim C9: whenever the convenience processing of `end` leaves the answer
section empty and the authority section consulted by the transmit decision is
empty, no DNS payload is transmitted (the send argument is `null`); in
particular, a request whose questions are all outside the registered zones,
ended without adding records, produces no response. -/
theorem c9_empty_sections_transmit_nothing :
    (∀ (server : ServerState) (res : RState) (value : EndValue) (secs : EndSections),
       res.requestorEDNS = none →
       res.msg.responseCode ≤ 0x0f →
       endQuestionLoop server (endBaseMsg res value).question (endStrValue value)
         (endBaseMsg res value).question
         ⟨(endBaseMsg res value).answer, (endBaseMsg res value).authority,
          (endBaseMsg res value).additional⟩ = .ok secs →
       secs.answer = [] →
       (match value with
        | .objValue _ => res.msg.authority
        | _ => secs.authority) = [] →
       endProcess server res value = .ok none)
    ∧ (∀ (server : ServerState) (res : RState),
       res.requestorEDNS = none →
       res.msg.responseCode ≤ 0x0f →
       (∀ q ∈ res.msg.question, findZoneForName server.zones q.name.toList = .ok none) →
       res.msg.answer = [] →
       res.msg.authority = [] →
       endProcess server res .noValue = .ok none) := by
  constructor
  · intro server res value secs hE hrc hloop hans hauth
    exact endProcess_no_payload server res value secs hE hrc hloop hans hauth
  · intro server res hE hrc hq hans hauth
    have hloop := endQuestionLoop_uncovered server
      (endBaseMsg res .noValue).question (endStrValue .noValue)
      (endBaseMsg res .noValue).question
      ⟨(endBaseMsg res .noValue).answer, (endBaseMsg res .noValue).authority,
       (endBaseMsg res .noValue).additional⟩
      (fun q hqmem => hq q hqmem)
    exact endProcess_no_payload server res .noValue _ hE hrc hloop hans hauth

def c9Soa : EncRecord :=
  { name := "example.com", cls := "IN", type := "SOA", ttl := some 3600,
    data := RecData.soaData "ns1.example.com" "admin@example.com" 1 3600 600 86400 300,
    edns := none }

def c9Server : ServerState :=
  { zones := [("example.com".toList, c9Soa)], optionsTtl := 3600 }

/-- A response whose only question, `example.org IN A`, lies outside every
registered zone; no records were added before `end`. -/
def c9Request : RState :=
  { msg :=
      { id := 7, typeStr := "response", opcode := "query",
        authoritative := false, truncated := false, recursionDesired := true,
        recursionAvailable := false, authenticated := false, checkingDisabled := false,
        responseCode := 0,
        question := [{ name := "example.org", cls := "IN", type := "A", ttl := none,
                       data := RecData.nothing, edns := none }],
        answer := [], authority := [], additional := [] },
    requestorEDNS := none }

/-- Witness for C9: an `example.org` question against a server authoritative
only for `example.com`, ended without a value, transmits nothing. -/
theorem c9_empty_sections_witness :
    endProcess c9Server c9Request .noValue = .ok none :=
  c9_empty_sections_transmit_nothing.2 c9Server c9Request rfl (by decide)
    (by decide) rfl rfl

/-- Witness for C1: both error branches fire on concrete loop states. -/
theorem c1_pointer_error_witness :
    nameLoop [0] 1 [0xc0, 0x10] 0 [] false 1 0 [] = .error .invalidPointer
    ∧ nameLoop [0, 0, 0, 0, 0] 1 [0xc0, 2] 0 [2] false 1 0 [] = .error .pointerCycle := by
  constructor
  · exact c1_pointer_error_handling.1 [0] [0xc0, 0x10] 0 0 [] false 1 0 [] 0xc0 0x10
      (by rfl) (by decide) (by rfl) (by decide)
  · exact c1_pointer_error_handling.2.1 [0, 0, 0, 0, 0] [0xc0, 2] 0 0 [2] false 1 0 []
      0xc0 2 (by rfl) (by decide) (by rfl) (by decide) (by decide)

end Dnsd
